import Mathlib

/-!
Verification of the QuickChart MCP server's request-normalization,
configuration-construction and URL-encoding logic.

The development shallowly embeds the TypeScript source: JavaScript runtime
values are modelled by `JsonVal` (with an explicit `undef` for the JavaScript
`undefined` value and an opaque `fn` for function values, since both interact
with `JSON.stringify`); objects are ordered association lists mirroring
JavaScript insertion order; numbers are modelled as integers (the claims under
study exercise no fractional values, NaN or Infinity); strings are Lean
strings.  Fallible code returns `Except McpError`.  Effectful collaborators
(filesystem writability, home directory, clock) are passed in explicitly via
`Env`; a `downloadChart` run that reaches the external fetch/write step is
represented by an `.ok (url, outputPath)` result.
-/

namespace QC

/-- JSON-like JavaScript runtime values. -/
inductive JsonVal : Type where
  | null
  | undef
  | bool (b : Bool)
  | num (n : Int)
  | str (s : String)
  | arr (elems : List JsonVal)
  | obj (fields : List (String × JsonVal))
  | fn
  deriving Repr

mutual
def jeq : JsonVal → JsonVal → Bool
  | .null, .null => true
  | .undef, .undef => true
  | .bool a, .bool b => a = b
  | .num a, .num b => a = b
  | .str a, .str b => a = b
  | .arr a, .arr b => jeqList a b
  | .obj a, .obj b => jeqFields a b
  | .fn, .fn => true
  | _, _ => false
def jeqList : List JsonVal → List JsonVal → Bool
  | [], [] => true
  | a :: as_, b :: bs => jeq a b && jeqList as_ bs
  | _, _ => false
def jeqFields : List (String × JsonVal) → List (String × JsonVal) → Bool
  | [], [] => true
  | (k1, v1) :: as_, (k2, v2) :: bs => k1 = k2 && jeq v1 v2 && jeqFields as_ bs
  | _, _ => false
end

mutual
theorem jeq_iff : ∀ a b, jeq a b = true ↔ a = b
  | a, b => by
    cases a <;> cases b <;> simp [jeq] <;>
      first
      | rfl
      | (try constructor) <;> intro h <;> simp_all [jeqList_iff, jeqFields_iff]
theorem jeqList_iff : ∀ a b, jeqList a b = true ↔ a = b
  | [], [] => by simp [jeqList]
  | [], _ :: _ => by simp [jeqList]
  | _ :: _, [] => by simp [jeqList]
  | a :: as_, b :: bs => by simp [jeqList, jeq_iff, jeqList_iff]
theorem jeqFields_iff : ∀ a b, jeqFields a b = true ↔ a = b
  | [], [] => by simp [jeqFields]
  | [], _ :: _ => by simp [jeqFields]
  | _ :: _, [] => by simp [jeqFields]
  | (k1, v1) :: as_, (k2, v2) :: bs => by
    simp [jeqFields, jeq_iff, jeqFields_iff, and_assoc]
end

instance : DecidableEq JsonVal := fun a b =>
  decidable_of_iff (jeq a b = true) (jeq_iff a b)

/-- First binding of a key in an object's field list (JavaScript property read). -/
def objGet : List (String × JsonVal) → String → Option JsonVal
  | [], _ => none
  | (k, v) :: rest, key => if k = key then some v else objGet rest key

/-- JavaScript property read `v.key`; non-objects have none of the properties
the source reads (`none` models `undefined`). -/
def jsGet (v : JsonVal) (key : String) : Option JsonVal :=
  match v with
  | .obj fs => objGet fs key
  | _ => none

/-- JavaScript truthiness. -/
def truthy : JsonVal → Bool
  | .null => false
  | .undef => false
  | .bool b => b
  | .num n => n ≠ 0
  | .str s => s ≠ ""
  | .arr _ => true
  | .obj _ => true
  | .fn => true

def truthyOpt : Option JsonVal → Bool
  | none => false
  | some v => truthy v

def natToCharsAux : Nat → Nat → List Char
  | 0, _ => []
  | fuel + 1, n =>
    if n < 10 then [Char.ofNat (48 + n)]
    else natToCharsAux fuel (n / 10) ++ [Char.ofNat (48 + n % 10)]

/-- Decimal digits of a natural number. -/
def natToChars (n : Nat) : List Char := natToCharsAux (n + 1) n

def natToString (n : Nat) : String := ⟨natToChars n⟩

/-- JavaScript decimal rendering of an integer. -/
def intToString (i : Int) : String :=
  if i < 0 then "-" ++ natToString i.natAbs else natToString i.toNat

/-- Indexed read `v[i]` (arrays by position, strings by character,
objects by the decimal-string key). -/
def jsIndexNat (v : JsonVal) (i : Nat) : Option JsonVal :=
  match v with
  | .arr xs => xs.get? i
  | .str s => (s.data.get? i).map (fun c => .str (String.singleton c))
  | .obj fs => objGet fs (natToString i)
  | _ => none

/-- Optional-chained property read `a?.key`. -/
def optChainGet (v : Option JsonVal) (key : String) : Option JsonVal :=
  match v with
  | none => none
  | some .null => none
  | some .undef => none
  | some x => jsGet x key

/-- Optional-chained indexed read `a?.[i]`. -/
def optChainIdx (v : Option JsonVal) (i : Nat) : Option JsonVal :=
  match v with
  | none => none
  | some .null => none
  | some .undef => none
  | some x => jsIndexNat x i

/-- `a || dflt` on a possibly-undefined value. -/
def jsOr (v : Option JsonVal) (dflt : JsonVal) : JsonVal :=
  match v with
  | some x => if truthy x then x else dflt
  | none => dflt

/-- The key/value pairs contributed by a spread `{...v}`: objects spread their
fields, arrays and strings their indexed elements, primitives nothing. -/
def spreadVal : JsonVal → List (String × JsonVal)
  | .obj fs => fs
  | .arr xs => xs.enum.map (fun p => (natToString p.1, p.2))
  | .str s => s.data.enum.map (fun p => (natToString p.1, .str (String.singleton p.2)))
  | _ => []

def hasKey (fs : List (String × JsonVal)) (k : String) : Bool := (objGet fs k).isSome

/-- Object-literal spread `{...base, ...ext}`: keys of `base` keep their
positions (values overridden by `ext` on collision), new keys of `ext` are
appended in order. -/
def spreadMerge (base ext : List (String × JsonVal)) : List (String × JsonVal) :=
  base.map (fun p => (p.1, (objGet ext p.1).getD p.2)) ++ ext.filter (fun p => !hasKey base p.1)

/-- Property assignment `o[k] = v`: replaces in place when the key exists,
appends otherwise. -/
def objSet (fs : List (String × JsonVal)) (k : String) (v : JsonVal) : List (String × JsonVal) :=
  if hasKey fs k then fs.map (fun p => if p.1 = k then (k, v) else p) else fs ++ [(k, v)]

def setField (v : JsonVal) (k : String) (nv : JsonVal) : JsonVal :=
  match v with
  | .obj fs => .obj (objSet fs k nv)
  | x => x

def isArrayB : JsonVal → Bool
  | .arr _ => true
  | _ => false

def isArrayOpt : Option JsonVal → Bool
  | some v => isArrayB v
  | none => false

def isStringOpt : Option JsonVal → Bool
  | some (.str _) => true
  | _ => false

/-- `typeof v === 'object'` (true for objects, arrays and `null`). -/
def typeofObject : JsonVal → Bool
  | .obj _ => true
  | .arr _ => true
  | .null => true
  | _ => false

mutual
/-- JavaScript `String(v)` / template-literal coercion. -/
def jsToString : JsonVal → String
  | .null => "null"
  | .undef => "undefined"
  | .bool true => "true"
  | .bool false => "false"
  | .num i => intToString i
  | .str s => s
  | .arr xs => String.intercalate "," (joinParts xs)
  | .obj _ => "[object Object]"
  | .fn => "function"
def joinParts : List JsonVal → List String
  | [] => []
  | .null :: rest => "" :: joinParts rest
  | .undef :: rest => "" :: joinParts rest
  | v :: rest => jsToString v :: joinParts rest
end

/-! ### UTF-8 and percent-encoding -/

/-- UTF-8 bytes of a character. -/
def utf8Bytes (c : Char) : List Nat :=
  let n := c.toNat
  if n < 128 then [n]
  else if n < 2048 then [192 + n / 64, 128 + n % 64]
  else if n < 65536 then [224 + n / 4096, 128 + (n / 64) % 64, 128 + n % 64]
  else [240 + n / 262144, 128 + (n / 4096) % 64, 128 + (n / 64) % 64, 128 + n % 64]

def utf8ListBytes (cs : List Char) : List Nat := cs.flatMap utf8Bytes

/-- Uppercase hexadecimal digit (as emitted by percent-encoding). -/
def hexDigitChar (d : Nat) : Char := if d < 10 then Char.ofNat (48 + d) else Char.ofNat (55 + d)

def percentByte (b : Nat) : List Char := ['%', hexDigitChar (b / 16), hexDigitChar (b % 16)]

/-- The characters `encodeURIComponent` leaves unescaped:
alphanumerics and `- _ . ! ~ * ' ( )`. -/
def uriUnreserved (c : Char) : Bool :=
  let n := c.toNat
  (48 ≤ n && n ≤ 57) || (65 ≤ n && n ≤ 90) || (97 ≤ n && n ≤ 122) ||
    n = 45 || n = 95 || n = 46 || n = 33 || n = 126 || n = 42 || n = 39 || n = 40 || n = 41

def encodeURIComponent (s : String) : String :=
  ⟨s.data.flatMap (fun c =>
    if uriUnreserved c then [c] else (utf8Bytes c).flatMap percentByte)⟩

/-- Hexadecimal digit value, either case. -/
def hexVal (c : Char) : Option Nat :=
  if 48 ≤ c.toNat ∧ c.toNat ≤ 57 then some (c.toNat - 48)
  else if 65 ≤ c.toNat ∧ c.toNat ≤ 70 then some (c.toNat - 55)
  else if 97 ≤ c.toNat ∧ c.toNat ≤ 102 then some (c.toNat - 87)
  else none

/-- Percent-decoding of an ASCII string to a byte list (fuel-based worker;
one unit of fuel per produced byte). -/
def percentDecodeBytesF : Nat → List Char → Option (List Nat)
  | _, [] => some []
  | 0, _ :: _ => none
  | fuel + 1, c :: rest =>
    if c = '%' then
      match rest with
      | h1 :: h2 :: rest2 =>
        match hexVal h1, hexVal h2 with
        | some a, some b => (percentDecodeBytesF fuel rest2).map (fun bs => (16 * a + b) :: bs)
        | _, _ => none
      | _ => none
    else if c.toNat < 128 then (percentDecodeBytesF fuel rest).map (fun bs => c.toNat :: bs)
    else none

def percentDecodeBytes (cs : List Char) : Option (List Nat) :=
  percentDecodeBytesF (cs.length + 1) cs

/-- Decode one UTF-8 scalar value (rejecting overlong forms and surrogates). -/
def utf8DecodeOne : List Nat → Option (Nat × List Nat)
  | [] => none
  | b0 :: rest =>
    if b0 < 128 then some (b0, rest)
    else if b0 < 192 then none
    else if b0 < 224 then
      match rest with
      | b1 :: r =>
        if 128 ≤ b1 ∧ b1 < 192 then
          let v := (b0 - 192) * 64 + (b1 - 128)
          if 128 ≤ v then some (v, r) else none
        else none
      | _ => none
    else if b0 < 240 then
      match rest with
      | b1 :: b2 :: r =>
        if (128 ≤ b1 ∧ b1 < 192) ∧ (128 ≤ b2 ∧ b2 < 192) then
          let v := (b0 - 224) * 4096 + (b1 - 128) * 64 + (b2 - 128)
          if 2048 ≤ v ∧ ¬ (55296 ≤ v ∧ v < 57344) then some (v, r) else none
        else none
      | _ => none
    else if b0 < 248 then
      match rest with
      | b1 :: b2 :: b3 :: r =>
        if (128 ≤ b1 ∧ b1 < 192) ∧ (128 ≤ b2 ∧ b2 < 192) ∧ (128 ≤ b3 ∧ b3 < 192) then
          let v := (b0 - 240) * 262144 + (b1 - 128) * 4096 + (b2 - 128) * 64 + (b3 - 128)
          if 65536 ≤ v ∧ v < 1114112 then some (v, r) else none
        else none
      | _ => none
    else none

def utf8DecodeChars : Nat → List Nat → Option (List Char)
  | _, [] => some []
  | 0, _ :: _ => none
  | fuel + 1, bs =>
    match utf8DecodeOne bs with
    | some (v, rest) => (utf8DecodeChars fuel rest).map (fun cs => Char.ofNat v :: cs)
    | none => none

def decodeURIComponent (s : String) : Option String :=
  (percentDecodeBytes s.data).bind (fun bs => (utf8DecodeChars bs.length bs).map (fun cs => ⟨cs⟩))

/-- Form-urlencoding as produced by `URLSearchParams.toString()`:
alphanumerics and `* - . _` unescaped, space becomes `+`, the rest
percent-encoded. -/
def formUnreserved (c : Char) : Bool :=
  let n := c.toNat
  (48 ≤ n && n ≤ 57) || (65 ≤ n && n ≤ 90) || (97 ≤ n && n ≤ 122) ||
    n = 42 || n = 45 || n = 46 || n = 95

def formEncode (s : String) : String :=
  ⟨s.data.flatMap (fun c =>
    if c = ' ' then ['+']
    else if formUnreserved c then [c]
    else (utf8Bytes c).flatMap percentByte)⟩

def renderQuery (pairs : List (String × String)) : String :=
  String.intercalate "&" (pairs.map (fun p => formEncode p.1 ++ "=" ++ formEncode p.2))

/-! ### JSON serialization (`JSON.stringify`) -/

def qC : Char := Char.ofNat 34
def bsC : Char := Char.ofNat 92
def lbC : Char := Char.ofNat 123
def rbC : Char := Char.ofNat 125

/-- Lowercase hexadecimal digit (as emitted in `\u00..` escapes). -/
def lhexDigitChar (d : Nat) : Char := if d < 10 then Char.ofNat (48 + d) else Char.ofNat (87 + d)

def escapeChar (c : Char) : List Char :=
  if c = qC then [bsC, qC]
  else if c = bsC then [bsC, bsC]
  else if c = Char.ofNat 8 then [bsC, 'b']
  else if c = Char.ofNat 9 then [bsC, 't']
  else if c = Char.ofNat 10 then [bsC, 'n']
  else if c = Char.ofNat 12 then [bsC, 'f']
  else if c = Char.ofNat 13 then [bsC, 'r']
  else if c.toNat < 32 then
    [bsC, 'u', '0', '0', lhexDigitChar (c.toNat / 16), lhexDigitChar (c.toNat % 16)]
  else [c]

def printString (s : String) : List Char := qC :: s.data.flatMap escapeChar ++ [qC]

/-- Values `JSON.stringify` treats as absent (object members are skipped,
array elements print as `null`, top level yields undefined). -/
def skipVal : JsonVal → Bool
  | .undef => true
  | .fn => true
  | _ => false

def joinComma : List (List Char) → List Char
  | [] => []
  | [p] => p
  | p :: rest => p ++ ',' :: joinComma rest

/-- The characters of the three JSON keyword literals. -/
def nullChars : List Char := ['n', 'u', 'l', 'l']

def trueChars : List Char := ['t', 'r', 'u', 'e']

def falseChars : List Char := ['f', 'a', 'l', 's', 'e']

mutual
def printVal : JsonVal → List Char
  | .null => nullChars
  | .undef => nullChars
  | .fn => nullChars
  | .bool true => trueChars
  | .bool false => falseChars
  | .num i => (intToString i).data
  | .str s => printString s
  | .arr xs => '[' :: (joinComma (elemPieces xs) ++ [']'])
  | .obj fs => lbC :: (joinComma (fieldPieces fs) ++ [rbC])
def elemPieces : List JsonVal → List (List Char)
  | [] => []
  | x :: rest => printVal x :: elemPieces rest
def fieldPieces : List (String × JsonVal) → List (List Char)
  | [] => []
  | (k, v) :: rest =>
    if skipVal v then fieldPieces rest
    else (printString k ++ ':' :: printVal v) :: fieldPieces rest
end

def jsonStringify (v : JsonVal) : Option String :=
  if skipVal v then none else some ⟨printVal v⟩

/-- `JSON.stringify` result as later coerced into a template string
(`String(undefined) = "undefined"`). -/
def jsonStringifyCoerced (v : JsonVal) : String :=
  match jsonStringify v with
  | some s => s
  | none => "undefined"

mutual
/-- What survives a `JSON.stringify`/parse round trip: function- and
undefined-valued object members disappear, such array elements become null. -/
def canon : JsonVal → JsonVal
  | .null => .null
  | .undef => .null
  | .fn => .null
  | .bool b => .bool b
  | .num i => .num i
  | .str s => .str s
  | .arr xs => .arr (canonElems xs)
  | .obj fs => .obj (canonFields fs)
def canonElems : List JsonVal → List JsonVal
  | [] => []
  | x :: rest => canon x :: canonElems rest
def canonFields : List (String × JsonVal) → List (String × JsonVal)
  | [] => []
  | (k, v) :: rest =>
    if skipVal v then canonFields rest else (k, canon v) :: canonFields rest
end

/-! ### JSON parsing (a test harness's decoder for compact JSON text) -/

def isDigitC (c : Char) : Bool := 48 ≤ c.toNat && c.toNat ≤ 57

def digitsToNat (acc : Nat) : List Char → Nat
  | [] => acc
  | c :: cs => digitsToNat (acc * 10 + (c.toNat - 48)) cs

def parseNatChars (cs : List Char) : Option (Nat × List Char) :=
  let ds := cs.takeWhile isDigitC
  if ds.isEmpty then none else some (digitsToNat 0 ds, cs.dropWhile isDigitC)

def hex4 (h1 h2 h3 h4 : Char) : Option Nat :=
  match hexVal h1, hexVal h2, hexVal h3, hexVal h4 with
  | some a, some b, some c, some d => some (((a * 16 + b) * 16 + c) * 16 + d)
  | _, _, _, _ => none

def parseStrCharsF : Nat → List Char → Option (List Char × List Char)
  | 0, _ => none
  | _ + 1, [] => none
  | f + 1, c :: cs =>
    if c = qC then some ([], cs)
    else if c = bsC then
      match cs with
      | [] => none
      | e :: cs2 =>
        if e = qC then (parseStrCharsF f cs2).map (fun p => (qC :: p.1, p.2))
        else if e = bsC then (parseStrCharsF f cs2).map (fun p => (bsC :: p.1, p.2))
        else if e = '/' then (parseStrCharsF f cs2).map (fun p => ('/' :: p.1, p.2))
        else if e = 'b' then (parseStrCharsF f cs2).map (fun p => (Char.ofNat 8 :: p.1, p.2))
        else if e = 't' then (parseStrCharsF f cs2).map (fun p => (Char.ofNat 9 :: p.1, p.2))
        else if e = 'n' then (parseStrCharsF f cs2).map (fun p => (Char.ofNat 10 :: p.1, p.2))
        else if e = 'f' then (parseStrCharsF f cs2).map (fun p => (Char.ofNat 12 :: p.1, p.2))
        else if e = 'r' then (parseStrCharsF f cs2).map (fun p => (Char.ofNat 13 :: p.1, p.2))
        else if e = 'u' then
          match cs2 with
          | h1 :: h2 :: h3 :: h4 :: cs3 =>
            match hex4 h1 h2 h3 h4 with
            | some n =>
              if n < 55296 ∨ 57344 ≤ n then
                (parseStrCharsF f cs3).map (fun p => (Char.ofNat n :: p.1, p.2))
              else if n < 56320 then
                match cs3 with
                | e2 :: u2 :: g1 :: g2 :: g3 :: g4 :: cs4 =>
                  if e2 = bsC ∧ u2 = 'u' then
                    match hex4 g1 g2 g3 g4 with
                    | some m =>
                      if 56320 ≤ m ∧ m < 57344 then
                        (parseStrCharsF f cs4).map
                          (fun p => (Char.ofNat (65536 + (n - 55296) * 1024 + (m - 56320)) :: p.1, p.2))
                      else none
                    | none => none
                  else none
                | _ => none
              else none
            | none => none
          | _ => none
        else none
    else if c.toNat < 32 then none
    else (parseStrCharsF f cs).map (fun p => (c :: p.1, p.2))

/-- Parse the remainder of a JSON string literal (after the opening quote),
returning the decoded characters and the input after the closing quote. -/
def parseStrChars (cs : List Char) : Option (List Char × List Char) :=
  parseStrCharsF (cs.length + 1) cs

mutual
def parseVal : Nat → List Char → Option (JsonVal × List Char)
  | _, [] => none
  | 0, _ :: _ => none
  | fuel + 1, c :: cs =>
    if c = 'n' then
      match cs with
      | 'u' :: 'l' :: 'l' :: rest => some (.null, rest)
      | _ => none
    else if c = 't' then
      match cs with
      | 'r' :: 'u' :: 'e' :: rest => some (.bool true, rest)
      | _ => none
    else if c = 'f' then
      match cs with
      | 'a' :: 'l' :: 's' :: 'e' :: rest => some (.bool false, rest)
      | _ => none
    else if c = qC then
      (parseStrChars cs).map (fun p => (.str ⟨p.1⟩, p.2))
    else if c = '-' then
      match parseNatChars cs with
      | some (n, rest) => some (.num (-(n : Int)), rest)
      | none => none
    else if isDigitC c then
      match parseNatChars (c :: cs) with
      | some (n, rest) => some (.num (n : Int), rest)
      | none => none
    else if c = '[' then
      match cs with
      | ']' :: rest => some (.arr [], rest)
      | _ => (parseElems fuel cs).map (fun p => (.arr p.1, p.2))
    else if c = lbC then
      match cs with
      | [] => none
      | c2 :: rest2 =>
        if c2 = rbC then some (.obj [], rest2)
        else (parseFieldsP fuel (c2 :: rest2)).map (fun p => (.obj p.1, p.2))
    else none
def parseElems : Nat → List Char → Option (List JsonVal × List Char)
  | 0, _ => none
  | fuel + 1, cs =>
    match parseVal fuel cs with
    | some (v, rest) =>
      match rest with
      | ']' :: rest2 => some ([v], rest2)
      | ',' :: rest2 => (parseElems fuel rest2).map (fun p => (v :: p.1, p.2))
      | _ => none
    | none => none
def parseFieldsP : Nat → List Char → Option (List (String × JsonVal) × List Char)
  | 0, _ => none
  | fuel + 1, cs =>
    match cs with
    | [] => none
    | c :: cs2 =>
      if c = qC then
        match parseStrChars cs2 with
        | some (kcs, rest) =>
          match rest with
          | ':' :: rest2 =>
            match parseVal fuel rest2 with
            | some (v, rest3) =>
              match rest3 with
              | [] => none
              | r :: rest4 =>
                if r = rbC then some ([(⟨kcs⟩, v)], rest4)
                else if r = ',' then
                  (parseFieldsP fuel rest4).map (fun p => ((⟨kcs⟩, v) :: p.1, p.2))
                else none
            | none => none
          | _ => none
        | none => none
      else none
end

def parseJson (s : String) : Option JsonVal :=
  match parseVal (2 * s.length + 2) s.data with
  | some (v, []) => some v
  | _ => none

mutual
/-- Fuel measure sufficient for `parseVal` on printed output. -/
def fsize : JsonVal → Nat
  | .arr xs => 1 + fsizeElems xs
  | .obj fs => 1 + fsizeFields fs
  | _ => 1
def fsizeElems : List JsonVal → Nat
  | [] => 0
  | x :: rest => 1 + fsize x + fsizeElems rest
def fsizeFields : List (String × JsonVal) → Nat
  | [] => 0
  | (_, v) :: rest =>
    if skipVal v then fsizeFields rest else 1 + fsize v + fsizeFields rest
end

/-! ### Embedding of the main implementation (the graphviz/wordcloud-capable
source file): error model, validator, configuration builder, URL encoder,
tool entry points. -/

inductive ErrorCode : Type where
  | invalidParams
  | internalError
  | methodNotFound
  deriving Repr, DecidableEq

structure McpError where
  code : ErrorCode
  message : String
  deriving Repr, DecidableEq

abbrev Result (α : Type) := Except McpError α

def invalid (msg : String) : McpError := ⟨.invalidParams, msg⟩

def QUICKCHART_BASE_URL : String := "https://quickchart.io/chart"
def QUICKCHART_GRAPHVIZ_URL : String := "https://quickchart.io/graphviz"
def QUICKCHART_WORDCLOUD_URL : String := "https://quickchart.io/wordcloud"

def validTypes : List String :=
  ["bar", "line", "pie", "doughnut", "radar",
   "polarArea", "scatter", "bubble", "radialGauge", "speedometer", "graphviz", "wordcloud"]

def invalidTypeMessage : String :=
  "Invalid chart type. Must be one of: " ++ String.intercalate ", " validTypes

def typeIsValid (v : JsonVal) : Bool :=
  match v with
  | .str s => validTypes.contains s
  | _ => false

def validateChartType (v : JsonVal) : Result Unit :=
  if typeIsValid v then .ok () else .error (invalid invalidTypeMessage)

/-- The spread `{...(dataset.additionalConfig || \x7b\x7d)}`. -/
def acFields (d : JsonVal) : List (String × JsonVal) :=
  match jsGet d "additionalConfig" with
  | some ac => if truthy ac then spreadVal ac else []
  | none => []

def baseDatasetFields (d : JsonVal) : List (String × JsonVal) :=
  [("label", jsOr (jsGet d "label") (.str "")),
   ("data", (jsGet d "data").getD .undef),
   ("backgroundColor", (jsGet d "backgroundColor").getD .undef),
   ("borderColor", (jsGet d "borderColor").getD .undef)]

def normalizeDataset (d : JsonVal) : Result JsonVal :=
  if ¬ truthy d ∨ ¬ truthyOpt (jsGet d "data") then
    .error (invalid "Each dataset must have a data property")
  else .ok (.obj (spreadMerge (baseDatasetFields d) (acFields d)))

def normalizeDatasets : List JsonVal → Result (List JsonVal)
  | [] => .ok []
  | d :: rest =>
    match normalizeDataset d with
    | .error e => .error e
    | .ok nd =>
      match normalizeDatasets rest with
      | .error e => .error e
      | .ok nds => .ok (nd :: nds)

def titleFields (args : JsonVal) : List (String × JsonVal) :=
  match jsGet args "title" with
  | some t =>
    if truthy t then [("title", .obj [("display", .bool true), ("text", t)])] else []
  | none => []

def baseOptions (args : JsonVal) : List (String × JsonVal) :=
  spreadMerge (spreadVal ((jsGet args "options").getD (.obj []))) (titleFields args)

def gaugePlugins : JsonVal :=
  .obj [("datalabels", .obj [("display", .bool true), ("formatter", .fn)])]

/-- The raw read `datasets?.[0]?.data?.[0]`. -/
def gaugeFirst (args : JsonVal) : Option JsonVal :=
  optChainIdx (optChainGet (optChainIdx (jsGet args "datasets") 0) "data") 0

/-- The raw read `dataset.data[0]` (each dataset's `data` is truthy by the
time this runs, so the unguarded index cannot throw). -/
def firstDataElem (d : JsonVal) : Option JsonVal :=
  jsIndexNat ((jsGet d "data").getD .undef) 0

def scatterMsg (tv : JsonVal) : String :=
  jsToString tv ++ " requires data points in [x, y" ++
    (if tv = .str "bubble" then ", r" else "") ++ "] format"

def scatterCheck (tv : JsonVal) : List JsonVal → Result Unit
  | [] => .ok ()
  | d :: rest =>
    if isArrayOpt (firstDataElem d) then scatterCheck tv rest
    else .error (invalid (scatterMsg tv))

def datasetsListOf (args : JsonVal) : List JsonVal :=
  match (jsGet args "datasets").getD .undef with
  | .arr xs => xs
  | _ => []

def builtConfig (args : JsonVal) (tv : JsonVal) (nds : List JsonVal) : JsonVal :=
  .obj [("type", tv),
        ("data", .obj [("labels", jsOr (jsGet args "labels") (.arr [])),
                       ("datasets", .arr nds)]),
        ("options", .obj (baseOptions args))]

def generateChartConfig (args : JsonVal) : Result JsonVal :=
  if ¬ truthy args then .error (invalid "No arguments provided to generateChartConfig")
  else if ¬ truthyOpt (jsGet args "type") then .error (invalid "Chart type is required")
  else
    let tv := (jsGet args "type").getD .undef
    match validateChartType tv with
    | .error e => .error e
    | .ok _ =>
      if tv = .str "graphviz" ∨ tv = .str "wordcloud" then .ok (.obj [("type", tv)])
      else if ¬ truthyOpt (jsGet args "datasets") ∨ ¬ isArrayOpt (jsGet args "datasets") then
        .error (invalid "Datasets must be a non-empty array")
      else
        let ds := datasetsListOf args
        match normalizeDatasets ds with
        | .error e => .error e
        | .ok nds =>
          let config := builtConfig args tv nds
          if tv = .str "radialGauge" ∨ tv = .str "speedometer" then
            if ¬ truthyOpt (gaugeFirst args) then
              .error (invalid (jsToString tv ++ " requires a single numeric value"))
            else
              .ok (setField config "options"
                    (.obj (spreadMerge (baseOptions args) [("plugins", gaugePlugins)])))
          else if tv = .str "scatter" ∨ tv = .str "bubble" then
            match scatterCheck tv ds with
            | .error e => .error e
            | .ok _ => .ok config
          else .ok config

/-- One optional wordcloud parameter gated on truthiness. -/
def wcParam (args : Option JsonVal) (argKey paramName : String) : List (String × String) :=
  match optChainGet args argKey with
  | some v => if truthy v then [(paramName, jsToString v)] else []
  | none => []

/-- One optional wordcloud parameter gated on `!== undefined`. -/
def wcParamDefined (args : Option JsonVal) (key : String) : List (String × String) :=
  match optChainGet args key with
  | some .undef => []
  | some v => [(key, jsToString v)]
  | none => []

def wcParamColors (args : Option JsonVal) : List (String × String) :=
  match optChainGet args "colors" with
  | some v => if truthy v then [("colors", jsonStringifyCoerced v)] else []
  | none => []

def wcOptPairs (args : Option JsonVal) : List (String × String) :=
  wcParam args "wordcloudFormat" "format" ++
  wcParam args "width" "width" ++
  wcParam args "height" "height" ++
  wcParam args "backgroundColor" "backgroundColor" ++
  wcParam args "fontFamily" "fontFamily" ++
  wcParam args "fontWeight" "fontWeight" ++
  wcParam args "loadGoogleFonts" "loadGoogleFonts" ++
  wcParam args "fontScale" "fontScale" ++
  wcParam args "scale" "scale" ++
  wcParam args "padding" "padding" ++
  wcParam args "rotation" "rotation" ++
  wcParam args "maxNumWords" "maxNumWords" ++
  wcParam args "minWordLength" "minWordLength" ++
  wcParam args "case" "case" ++
  wcParamColors args ++
  wcParamDefined args "removeStopwords" ++
  wcParamDefined args "cleanWords" ++
  wcParam args "language" "language" ++
  wcParamDefined args "useWordList"

def generateChartUrl (config : JsonVal) (args : Option JsonVal) : Result String :=
  if jsGet config "type" = some (.str "graphviz") then
    let dotv := optChainGet args "dot"
    if ¬ truthyOpt dotv ∨ ¬ isStringOpt dotv then
      .error (invalid "DOT language code is required for graphviz charts")
    else
      let encodedDot := encodeURIComponent (jsToString (dotv.getD .undef))
      let format := jsOr (optChainGet args "graphvizFormat") (.str "png")
      let layout := jsOr (optChainGet args "graphvizLayout") (.str "dot")
      .ok (QUICKCHART_GRAPHVIZ_URL ++ "?graph=" ++ encodedDot ++
           "&layout=" ++ jsToString layout ++ "&format=" ++ jsToString format)
  else if jsGet config "type" = some (.str "wordcloud") then
    let textv := optChainGet args "text"
    if ¬ truthyOpt textv ∨ ¬ isStringOpt textv then
      .error (invalid "Text is required for wordcloud charts")
    else
      .ok (QUICKCHART_WORDCLOUD_URL ++ "?" ++
           renderQuery (("text", jsToString (textv.getD .undef)) :: wcOptPairs args))
  else
    .ok (QUICKCHART_BASE_URL ++ "?c=" ++ encodeURIComponent (jsonStringifyCoerced config))

/-- The `generate_chart` tool. -/
def generateChart (args : JsonVal) : Result String :=
  match generateChartConfig args with
  | .error e => .error e
  | .ok config => generateChartUrl config (some args)

/-! ### The `download_chart` tool -/

/-- External collaborators of the download path, fixed per invocation. -/
structure Env where
  writable : String → Bool
  homeDir : String
  timestamp : String

/-- POSIX `path.dirname`. -/
def dirname (p : String) : String :=
  let cs := p.data
  let hasRoot := cs.head? = some '/'
  let stripped := (cs.reverse.dropWhile (fun c => c = '/')).reverse
  let parentRev := (stripped.reverse.dropWhile (fun c => c ≠ '/')).dropWhile (fun c => c = '/')
  if parentRev = [] then (if hasRoot then "/" else ".") else ⟨parentRev.reverse⟩

/-- Caller-supplied output path, or the default
`<base>/<type>_<timestamp>.png` with base preferring a writable Desktop. -/
def resolveOutputPath (env : Env) (norm : JsonVal) (userPath : Option String) : String :=
  match userPath with
  | some p => p
  | none =>
    let desktopDir := env.homeDir ++ "/" ++ "Desktop"
    let baseDir := if env.writable desktopDir then desktopDir else env.homeDir
    let chartType := jsOr (jsGet norm "type") (.str "chart")
    baseDir ++ "/" ++ jsToString chartType ++ "_" ++ env.timestamp ++ ".png"

/-- Lift one of `datasets`/`labels`/`type` from `config.data` when absent
(falsy) at top level. -/
def liftFromData (config : JsonVal) (fs : List (String × JsonVal)) (key : String) :
    List (String × JsonVal) :=
  match jsGet config "data" with
  | some dv =>
    if truthy dv ∧ typeofObject dv ∧ truthyOpt (jsGet dv key) ∧ ¬ truthyOpt (objGet fs key) then
      objSet fs key ((jsGet dv key).getD .undef)
    else fs
  | none => fs

def normalizeConfig (config : JsonVal) : JsonVal :=
  .obj (liftFromData config
         (liftFromData config
           (liftFromData config (spreadVal config) "datasets") "labels") "type")

/-- The `download_chart` tool, up to (and excluding) the external fetch and
file write: an `.ok (url, outputPath)` result means the run reached the
fetch/write step with that URL and path. -/
def downloadChart (env : Env) (config : JsonVal) (userPath : Option String) :
    Result (String × String) :=
  if ¬ truthy config ∨ ¬ typeofObject config then
    .error (invalid "Config must be a valid chart configuration object")
  else
    let norm := normalizeConfig config
    if ¬ truthyOpt (jsGet norm "type") ∨ ¬ truthyOpt (jsGet norm "datasets") then
      .error (invalid
        "Config must include type and datasets properties (either at root level or inside data object)")
    else
      let outputPath := resolveOutputPath env norm userPath
      let outputDir := dirname outputPath
      if ¬ env.writable outputDir then
        .error (invalid ("Output directory does not exist or is not writable: " ++ outputDir))
      else
        match generateChartConfig norm with
        | .error e => .error e
        | .ok chartConfig =>
          match generateChartUrl chartConfig none with
          | .error e => .error e
          | .ok url => .ok (url, outputPath)

/-! ### The `src/index.ts` / `src/http-server.ts` transport variant
(its validator enumerates only the ten chart-family types and runs after
the datasets check). -/

def validTypesIndex : List String :=
  ["bar", "line", "pie", "doughnut", "radar",
   "polarArea", "scatter", "bubble", "radialGauge", "speedometer"]

def invalidTypeMessageIndex : String :=
  "Invalid chart type. Must be one of: " ++ String.intercalate ", " validTypesIndex

def typeIsValidIndex (v : JsonVal) : Bool :=
  match v with
  | .str s => validTypesIndex.contains s
  | _ => false

def validateChartTypeIndex (v : JsonVal) : Result Unit :=
  if typeIsValidIndex v then .ok () else .error (invalid invalidTypeMessageIndex)

def generateChartConfigIndex (args : JsonVal) : Result JsonVal :=
  if ¬ truthy args then .error (invalid "No arguments provided to generateChartConfig")
  else if ¬ truthyOpt (jsGet args "type") then .error (invalid "Chart type is required")
  else if ¬ truthyOpt (jsGet args "datasets") ∨ ¬ isArrayOpt (jsGet args "datasets") then
    .error (invalid "Datasets must be a non-empty array")
  else
    let tv := (jsGet args "type").getD .undef
    match validateChartTypeIndex tv with
    | .error e => .error e
    | .ok _ =>
      let ds := datasetsListOf args
      match normalizeDatasets ds with
      | .error e => .error e
      | .ok nds =>
        let config := builtConfig args tv nds
        if tv = .str "radialGauge" ∨ tv = .str "speedometer" then
          if ¬ truthyOpt (gaugeFirst args) then
            .error (invalid (jsToString tv ++ " requires a single numeric value"))
          else
            .ok (setField config "options"
                  (.obj (spreadMerge (baseOptions args) [("plugins", gaugePlugins)])))
        else if tv = .str "scatter" ∨ tv = .str "bubble" then
          match scatterCheck tv ds with
          | .error e => .error e
          | .ok _ => .ok config
        else .ok config

def generateChartIndex (args : JsonVal) : Result String :=
  match generateChartConfigIndex args with
  | .error e => .error e
  | .ok config => .ok (QUICKCHART_BASE_URL ++ "?c=" ++
      encodeURIComponent (jsonStringifyCoerced config))

/-! ## Basic lemmas about the object model -/

@[simp] theorem jsGet_obj (fs : List (String × JsonVal)) (k : String) :
    jsGet (.obj fs) k = objGet fs k := rfl

@[simp] theorem truthy_obj (fs : List (String × JsonVal)) : truthy (.obj fs) = true := rfl

@[simp] theorem truthy_arr (xs : List JsonVal) : truthy (.arr xs) = true := rfl

@[simp] theorem truthyOpt_some (v : JsonVal) : truthyOpt (some v) = truthy v := rfl

@[simp] theorem truthyOpt_none : truthyOpt none = false := rfl

theorem jsGet_some_obj {v : JsonVal} {k : String} {x : JsonVal} (h : jsGet v k = some x) :
    ∃ fs, v = .obj fs := by
  cases v <;> simp_all [jsGet]

theorem objGet_append (l1 l2 : List (String × JsonVal)) (k : String) :
    objGet (l1 ++ l2) k =
      match objGet l1 k with
      | some v => some v
      | none => objGet l2 k := by
  induction l1 with
  | nil => simp [objGet]
  | cons p rest ih =>
    obtain ⟨k1, v1⟩ := p
    by_cases h : k1 = k <;> simp [objGet, h, ih]

theorem objGet_map_override (b e : List (String × JsonVal)) (k : String) :
    objGet (b.map (fun p => (p.1, (objGet e p.1).getD p.2))) k =
      (objGet b k).map (fun v => (objGet e k).getD v) := by
  induction b with
  | nil => simp [objGet]
  | cons p rest ih =>
    obtain ⟨k1, v1⟩ := p
    by_cases h : k1 = k <;> simp [objGet, h, ih]

theorem objGet_filter_keep (b e : List (String × JsonVal)) (k : String)
    (h : hasKey b k = false) :
    objGet (e.filter (fun p => !hasKey b p.1)) k = objGet e k := by
  induction e with
  | nil => simp [objGet]
  | cons p rest ih =>
    obtain ⟨k1, v1⟩ := p
    by_cases hk : k1 = k
    · subst hk; simp [List.filter, h, objGet, ih]
    · by_cases hb : hasKey b k1 <;> simp [List.filter, hb, objGet, hk, ih]

/-- Property lookup after an object spread `{...b, ...e}`: the extension wins
on collision, the base otherwise. -/
theorem objGet_spreadMerge (b e : List (String × JsonVal)) (k : String) :
    objGet (spreadMerge b e) k =
      match objGet e k with
      | some v => some v
      | none => objGet b k := by
  unfold spreadMerge
  rw [objGet_append, objGet_map_override]
  cases hb : objGet b k with
  | some v => cases he : objGet e k <;> simp [hb, he]
  | none =>
    have hkb : hasKey b k = false := by simp [hasKey, hb]
    rw [objGet_filter_keep _ _ _ hkb]
    cases he : objGet e k <;> simp [hb, he]

theorem normalizeDatasets_ok (ds : List JsonVal)
    (h : ∀ d ∈ ds, truthy d = true ∧ truthyOpt (jsGet d "data") = true) :
    ∃ nds, normalizeDatasets ds = .ok nds := by
  induction ds with
  | nil => exact ⟨[], rfl⟩
  | cons d rest ih =>
    obtain ⟨hd, hdata⟩ := h d (by simp)
    obtain ⟨nds, hnds⟩ := ih (fun x hx => h x (by simp [hx]))
    exact ⟨.obj (spreadMerge (baseDatasetFields d) (acFields d)) :: nds,
      by simp [normalizeDatasets, normalizeDataset, hd, hdata, hnds]⟩

theorem scatterCheck_ok (tv : JsonVal) (ds : List JsonVal)
    (h : ∀ d ∈ ds, isArrayOpt (firstDataElem d) = true) :
    scatterCheck tv ds = .ok () := by
  induction ds with
  | nil => rfl
  | cons d rest ih =>
    have hd := h d (by simp)
    simp [scatterCheck, hd, ih (fun x hx => h x (by simp [hx]))]

theorem scatterCheck_error (tv : JsonVal) (ds : List JsonVal)
    (h : ∃ d ∈ ds, isArrayOpt (firstDataElem d) = false) :
    scatterCheck tv ds = .error (invalid (scatterMsg tv)) := by
  induction ds with
  | nil => simp at h
  | cons d rest ih =>
    by_cases hd : isArrayOpt (firstDataElem d) = true
    · obtain ⟨x, hx, hxf⟩ := h
      rcases List.mem_cons.mp hx with hx | hx
      · subst hx; rw [hd] at hxf; cases hxf
      · simp [scatterCheck, hd, ih ⟨x, hx, hxf⟩]
    · simp at hd
      simp [scatterCheck, hd]

/-! ## C2: the invalid-chart-type error -/

/-- **C2 (amended).** In the main implementation, for every arguments object
whose `type` is truthy and not one of the twelve valid types,
`generate_chart` fails with InvalidParams and the error message enumerates
exactly the full valid set (the `src/index.ts`/`src/http-server.ts` variant
enumerates only ten types; see the counterexample). -/
theorem generate_chart_invalid_type_message (args : JsonVal)
    (fields : List (String × JsonVal)) (tv : JsonVal)
    (hargs : args = .obj fields) (hty : objGet fields "type" = some tv)
    (htr : truthy tv = true) (hnv : typeIsValid tv = false) :
    generateChart args = .error (invalid invalidTypeMessage) ∧
      invalidTypeMessage =
        "Invalid chart type. Must be one of: bar, line, pie, doughnut, radar, polarArea, scatter, bubble, radialGauge, speedometer, graphviz, wordcloud" := by
  subst hargs
  constructor
  · unfold generateChart generateChartConfig
    simp [hty, htr, validateChartType, hnv]
  · rfl

/-- Witness for C2's amended theorem at the concrete input
`\x7btype: "foo"\x7d`. -/
theorem generate_chart_invalid_type_message_witness :
    generateChart (.obj [("type", .str "foo")]) = .error (invalid invalidTypeMessage) :=
  (generate_chart_invalid_type_message (.obj [("type", .str "foo")])
    [("type", .str "foo")] (.str "foo") rfl rfl (by decide) (by decide)).1

set_option maxRecDepth 4000 in
/-- **C2 (counterexample).** The transport variant in `src/index.ts` /
`src/http-server.ts` rejects the out-of-set type `"foo"` with a message that
enumerates only ten values — it does not mention `graphviz` (or `wordcloud`),
so the error message does not enumerate the claimed full set. -/
theorem generate_chart_index_message_not_full_set :
    generateChartIndex
        (.obj [("type", .str "foo"),
               ("datasets", .arr [.obj [("data", .arr [.num 1])]])])
      = .error (invalid invalidTypeMessageIndex) ∧
    ¬ List.IsInfix "graphviz".data invalidTypeMessageIndex.data ∧
    invalidTypeMessageIndex ≠ invalidTypeMessage := by
  refine ⟨rfl, by decide, by decide⟩

/-! ## C3: the gauge-type scalar requirement -/

/-- **C3.** For `radialGauge`/`speedometer` requests with well-shaped
datasets, the build fails with InvalidParams exactly when the raw read
`datasets?.[0]?.data?.[0]` is falsy (so also for a first value of `0`), and
otherwise succeeds with the fixed `plugins.datalabels` block merged into the
options. -/
theorem gauge_scalar_requirement (args : JsonVal) (fields : List (String × JsonVal))
    (t : String) (ds : List JsonVal)
    (hargs : args = .obj fields)
    (hty : objGet fields "type" = some (.str t))
    (hg : t = "radialGauge" ∨ t = "speedometer")
    (hds : objGet fields "datasets" = some (.arr ds))
    (hwf : ∀ d ∈ ds, truthy d = true ∧ truthyOpt (jsGet d "data") = true) :
    (truthyOpt (gaugeFirst args) = false →
      generateChartConfig args = .error (invalid (t ++ " requires a single numeric value")))
    ∧ (truthyOpt (gaugeFirst args) = true →
      ∃ cfg, generateChartConfig args = .ok cfg ∧
        optChainGet (jsGet cfg "options") "plugins" = some gaugePlugins) := by
  subst hargs
  have hvalid : typeIsValid (.str t) = true := by
    rcases hg with h | h <;> subst h <;> decide
  have htne : truthy (JsonVal.str t) = true := by
    rcases hg with h | h <;> subst h <;> decide
  have hngw : ¬ (t = "graphviz" ∨ t = "wordcloud") := by
    rcases hg with h | h <;> subst h <;> decide
  have hgauge : (t = "radialGauge" ∨ t = "speedometer") = True := eq_true hg
  obtain ⟨nds, hnds⟩ := normalizeDatasets_ok ds hwf
  have hdl : datasetsListOf (.obj fields) = ds := by simp [datasetsListOf, hds]
  constructor
  · intro hf
    unfold generateChartConfig
    simp [hty, htne, validateChartType, hvalid, hngw, hds, isArrayOpt, isArrayB,
          hdl, hnds, hgauge, hf, jsToString]
  · intro hf
    refine ⟨setField (builtConfig (.obj fields) (.str t) nds) "options"
      (.obj (spreadMerge (baseOptions (.obj fields)) [("plugins", gaugePlugins)])), ?_, ?_⟩
    · unfold generateChartConfig
      simp [hty, htne, validateChartType, hvalid, hngw, hds, isArrayOpt, isArrayB,
            hdl, hnds, hgauge, hf]
    · simp [setField, builtConfig, objSet, hasKey, objGet, optChainGet,
            objGet_spreadMerge]

/-- Witness for C3 at concrete gauge inputs: a first data value of `0` is
rejected, a first value of `42` succeeds and carries the datalabels block. -/
theorem gauge_scalar_requirement_witness :
    generateChartConfig
        (.obj [("type", .str "radialGauge"),
               ("datasets", .arr [.obj [("data", .arr [.num 0])]])])
      = .error (invalid "radialGauge requires a single numeric value")
    ∧ ∃ cfg,
        generateChartConfig
            (.obj [("type", .str "radialGauge"),
                   ("datasets", .arr [.obj [("data", .arr [.num 42])]])])
          = .ok cfg ∧ optChainGet (jsGet cfg "options") "plugins" = some gaugePlugins := by
  constructor
  · exact (gauge_scalar_requirement
      (.obj [("type", .str "radialGauge"),
             ("datasets", .arr [.obj [("data", .arr [.num 0])]])])
      [("type", .str "radialGauge"),
       ("datasets", .arr [.obj [("data", .arr [.num 0])]])]
      "radialGauge" [.obj [("data", .arr [.num 0])]]
      rfl (by decide) (Or.inl rfl) (by decide) (by decide)).1 (by decide)
  · exact (gauge_scalar_requirement
      (.obj [("type", .str "radialGauge"),
             ("datasets", .arr [.obj [("data", .arr [.num 42])]])])
      [("type", .str "radialGauge"),
       ("datasets", .arr [.obj [("data", .arr [.num 42])]])]
      "radialGauge" [.obj [("data", .arr [.num 42])]]
      rfl (by decide) (Or.inl rfl) (by decide) (by decide)).2 (by decide)

/-! ## C4: the scatter/bubble point-format requirement -/

/-- **C4.** For `scatter`/`bubble` requests with well-shaped datasets, the
build fails with InvalidParams when some dataset's first data element is not
an array, and passes the type-specific check (succeeding) when every
dataset's first data element is an array. -/
theorem scatter_point_format (args : JsonVal) (fields : List (String × JsonVal))
    (t : String) (ds : List JsonVal)
    (hargs : args = .obj fields)
    (hty : objGet fields "type" = some (.str t))
    (hg : t = "scatter" ∨ t = "bubble")
    (hds : objGet fields "datasets" = some (.arr ds))
    (hwf : ∀ d ∈ ds, truthy d = true ∧ truthyOpt (jsGet d "data") = true) :
    ((∃ d ∈ ds, isArrayOpt (firstDataElem d) = false) →
      generateChartConfig args = .error (invalid (scatterMsg (.str t))))
    ∧ ((∀ d ∈ ds, isArrayOpt (firstDataElem d) = true) →
      ∃ cfg, generateChartConfig args = .ok cfg) := by
  subst hargs
  have hvalid : typeIsValid (.str t) = true := by
    rcases hg with h | h <;> subst h <;> decide
  have htne : truthy (JsonVal.str t) = true := by
    rcases hg with h | h <;> subst h <;> decide
  have hngw : ¬ (t = "graphviz" ∨ t = "wordcloud") := by
    rcases hg with h | h <;> subst h <;> decide
  have hngauge : ¬ (t = "radialGauge" ∨ t = "speedometer") := by
    rcases hg with h | h <;> subst h <;> decide
  have hsc : (t = "scatter" ∨ t = "bubble") = True := eq_true hg
  obtain ⟨nds, hnds⟩ := normalizeDatasets_ok ds hwf
  have hdl : datasetsListOf (.obj fields) = ds := by simp [datasetsListOf, hds]
  constructor
  · intro hf
    unfold generateChartConfig
    simp [hty, htne, validateChartType, hvalid, hngw, hds, isArrayOpt, isArrayB,
          hdl, hnds, hngauge, hsc, scatterCheck_error (.str t) ds hf]
  · intro hf
    refine ⟨builtConfig (.obj fields) (.str t) nds, ?_⟩
    unfold generateChartConfig
    simp [hty, htne, validateChartType, hvalid, hngw, hds, isArrayOpt, isArrayB,
          hdl, hnds, hngauge, hsc, scatterCheck_ok (.str t) ds hf]

/-- Witness for C4 at concrete scatter inputs: a bare-number first element
fails with the point-format message, a pair first element succeeds. -/
theorem scatter_point_format_witness :
    generateChartConfig
        (.obj [("type", .str "scatter"),
               ("datasets", .arr [.obj [("data", .arr [.num 1, .num 2])]])])
      = .error (invalid "scatter requires data points in [x, y] format")
    ∧ ∃ cfg,
        generateChartConfig
            (.obj [("type", .str "scatter"),
                   ("datasets", .arr [.obj [("data", .arr [.arr [.num 1, .num 2]])]])])
          = .ok cfg := by
  constructor
  · have h := (scatter_point_format
      (.obj [("type", .str "scatter"),
             ("datasets", .arr [.obj [("data", .arr [.num 1, .num 2])]])])
      [("type", .str "scatter"),
       ("datasets", .arr [.obj [("data", .arr [.num 1, .num 2])]])]
      "scatter" [.obj [("data", .arr [.num 1, .num 2])]]
      rfl (by decide) (Or.inl rfl) (by decide) (by decide)).1
      ⟨.obj [("data", .arr [.num 1, .num 2])], by decide, by decide⟩
    simpa [scatterMsg, jsToString] using h
  · exact (scatter_point_format
      (.obj [("type", .str "scatter"),
             ("datasets", .arr [.obj [("data", .arr [.arr [.num 1, .num 2]])]])])
      [("type", .str "scatter"),
       ("datasets", .arr [.obj [("data", .arr [.arr [.num 1, .num 2]])]])]
      "scatter" [.obj [("data", .arr [.arr [.num 1, .num 2]])]]
      rfl (by decide) (Or.inl rfl) (by decide) (by decide)).2 (by decide)

/-! ## C5: `additionalConfig` overrides the normalized dataset fields -/

/-- **C5.** In the builder's dataset normalization, any key of the dataset's
`additionalConfig` object wins over the builder's own normalized fields
(`label`, `data`, `backgroundColor`, `borderColor`), and a normalized field
whose key does not occur in `additionalConfig` keeps the builder's value. -/
theorem additional_config_wins (d : JsonVal) (df acf : List (String × JsonVal))
    (hd : d = .obj df)
    (hdata : truthyOpt (objGet df "data") = true)
    (hac : objGet df "additionalConfig" = some (.obj acf)) :
    ∃ ndf, normalizeDataset d = .ok (.obj ndf)
      ∧ (∀ k v, objGet acf k = some v → objGet ndf k = some v)
      ∧ (∀ k, k ∈ (["label", "data", "backgroundColor", "borderColor"] : List String) →
          objGet acf k = none → objGet ndf k = objGet (baseDatasetFields d) k) := by
  subst hd
  refine ⟨spreadMerge (baseDatasetFields (.obj df)) acf, ?_, ?_, ?_⟩
  · simp [normalizeDataset, hdata, acFields, hac, spreadVal]
  · intro k v hkv
    rw [objGet_spreadMerge]
    simp [hkv]
  · intro k _ hknone
    rw [objGet_spreadMerge]
    simp [hknone]

/-- Witness for C5: a colliding `label` key from `additionalConfig` wins,
the non-colliding `data` field keeps the builder's value. -/
theorem additional_config_wins_witness :
    ∃ ndf,
      normalizeDataset
          (.obj [("label", .str "L"), ("data", .arr [.num 1]),
                 ("additionalConfig", .obj [("label", .str "X"), ("foo", .num 7)])])
        = .ok (.obj ndf)
      ∧ objGet ndf "label" = some (.str "X")
      ∧ objGet ndf "data" =
          objGet (baseDatasetFields
            (.obj [("label", .str "L"), ("data", .arr [.num 1]),
                   ("additionalConfig", .obj [("label", .str "X"), ("foo", .num 7)])])) "data" := by
  obtain ⟨ndf, h1, h2, h3⟩ := additional_config_wins
    (.obj [("label", .str "L"), ("data", .arr [.num 1]),
           ("additionalConfig", .obj [("label", .str "X"), ("foo", .num 7)])])
    [("label", .str "L"), ("data", .arr [.num 1]),
     ("additionalConfig", .obj [("label", .str "X"), ("foo", .num 7)])]
    [("label", .str "X"), ("foo", .num 7)]
    rfl (by decide) (by decide)
  exact ⟨ndf, h1, h2 "label" (.str "X") (by decide), h3 "data" (by decide) (by decide)⟩

/-! ## C6: the wordcloud query string -/

/-- How an optional wordcloud parameter is gated and rendered: included when
truthy, included when truthy rendered as JSON (`colors`), or included when
not undefined (the three boolean flags). -/
inductive WCGate : Type where
  | truthyGate
  | jsonGate
  | definedGate
  deriving Repr, DecidableEq

/-- The spec-side description of the optional wordcloud parameters: a fixed,
ordered table of (argument key, query-parameter name, inclusion gate). -/
def wcTable : List (String × String × WCGate) :=
  [("wordcloudFormat", "format", .truthyGate),
   ("width", "width", .truthyGate),
   ("height", "height", .truthyGate),
   ("backgroundColor", "backgroundColor", .truthyGate),
   ("fontFamily", "fontFamily", .truthyGate),
   ("fontWeight", "fontWeight", .truthyGate),
   ("loadGoogleFonts", "loadGoogleFonts", .truthyGate),
   ("fontScale", "fontScale", .truthyGate),
   ("scale", "scale", .truthyGate),
   ("padding", "padding", .truthyGate),
   ("rotation", "rotation", .truthyGate),
   ("maxNumWords", "maxNumWords", .truthyGate),
   ("minWordLength", "minWordLength", .truthyGate),
   ("case", "case", .truthyGate),
   ("colors", "colors", .jsonGate),
   ("removeStopwords", "removeStopwords", .definedGate),
   ("cleanWords", "cleanWords", .definedGate),
   ("language", "language", .truthyGate),
   ("useWordList", "useWordList", .definedGate)]

def wcEntryPairs (args : Option JsonVal) (e : String × String × WCGate) :
    List (String × String) :=
  match optChainGet args e.1, e.2.2 with
  | none, _ => []
  | some v, .truthyGate => if truthy v then [(e.2.1, jsToString v)] else []
  | some v, .jsonGate => if truthy v then [(e.2.1, jsonStringifyCoerced v)] else []
  | some v, .definedGate => if v = .undef then [] else [(e.2.1, jsToString v)]

/-- Spec-side query pairs: iterate the fixed table in order, keeping exactly
the parameters that pass their gate. -/
def wordcloudPairsSpec (args : Option JsonVal) : List (String × String) :=
  wcTable.flatMap (wcEntryPairs args)

theorem wcEntry_truthy (args : Option JsonVal) (a p : String) :
    wcEntryPairs args (a, p, .truthyGate) = wcParam args a p := by
  cases h : optChainGet args a <;> simp [wcEntryPairs, wcParam, h]

theorem wcEntry_defined (args : Option JsonVal) (a : String) :
    wcEntryPairs args (a, a, .definedGate) = wcParamDefined args a := by
  cases h : optChainGet args a with
  | none => simp [wcEntryPairs, wcParamDefined, h]
  | some v => cases v <;> simp [wcEntryPairs, wcParamDefined, h]

theorem wcEntry_colors (args : Option JsonVal) :
    wcEntryPairs args ("colors", "colors", .jsonGate) = wcParamColors args := by
  cases h : optChainGet args "colors" <;> simp [wcEntryPairs, wcParamColors, h]

/-- The encoder's sequential appends produce exactly the table-driven pairs. -/
theorem wcOptPairs_eq_spec (args : Option JsonVal) :
    wcOptPairs args = wordcloudPairsSpec args := by
  unfold wcOptPairs wordcloudPairsSpec wcTable
  simp only [List.flatMap_cons, List.flatMap_nil, List.append_nil,
    wcEntry_truthy, wcEntry_defined, wcEntry_colors, List.append_assoc]

/-- The builder's graphviz/wordcloud short cut: a minimal placeholder
configuration carrying only the type. -/
theorem generateChartConfig_placeholder (args : JsonVal)
    (fields : List (String × JsonVal)) (tv : JsonVal)
    (hargs : args = .obj fields) (hty : objGet fields "type" = some tv)
    (htr : truthy tv = true) (hgw : tv = .str "graphviz" ∨ tv = .str "wordcloud") :
    generateChartConfig args = .ok (.obj [("type", tv)]) := by
  subst hargs
  have hvalid : typeIsValid tv = true := by
    rcases hgw with h | h <;> subst h <;> decide
  unfold generateChartConfig
  rw [if_neg (by simp), if_neg (by simp [hty, htr])]
  simp only [jsGet_obj, hty, Option.getD_some]
  rw [show validateChartType tv = .ok () from by simp [validateChartType, hvalid]]
  rw [if_pos hgw]

/-- **C6 (amended).** For a wordcloud request with a truthy string `text`,
the output URL is the word-cloud endpoint whose query has `text` first,
followed by exactly those optional parameters of the fixed ordered table
that are truthy in the raw arguments (defined, for the three boolean flags),
numbers and booleans coerced to strings and `colors` serialized as a JSON
array string; every other optional parameter is absent.  (The claim's
"present" is corrected to "truthy": a present-but-falsy parameter such as
`width: 0` is omitted — see the counterexample.) -/
theorem wordcloud_url (args : JsonVal) (fields : List (String × JsonVal)) (t : String)
    (hargs : args = .obj fields)
    (hty : objGet fields "type" = some (.str "wordcloud"))
    (htext : objGet fields "text" = some (.str t))
    (hne : t ≠ "") :
    generateChart args = .ok (QUICKCHART_WORDCLOUD_URL ++ "?" ++
      renderQuery (("text", t) :: wordcloudPairsSpec (some args))) := by
  have htr : truthy (JsonVal.str t) = true := by simp [truthy, hne]
  have hcfg := generateChartConfig_placeholder args fields (.str "wordcloud") hargs hty
    (by decide) (Or.inr rfl)
  subst hargs
  unfold generateChart
  rw [hcfg]
  show generateChartUrl (.obj [("type", .str "wordcloud")]) (some (.obj fields)) = _
  unfold generateChartUrl
  have h1 : jsGet (JsonVal.obj [("type", JsonVal.str "wordcloud")]) "type"
      = some (JsonVal.str "wordcloud") := rfl
  rw [h1, if_neg (by decide), if_pos rfl]
  have hchain : optChainGet (some (JsonVal.obj fields)) "text" = objGet fields "text" := rfl
  have hcneg : ¬ (¬ truthyOpt (optChainGet (some (JsonVal.obj fields)) "text") = true
      ∨ ¬ isStringOpt (optChainGet (some (JsonVal.obj fields)) "text") = true) := by
    simp [hchain, htext, htr, isStringOpt]
  rw [if_neg hcneg]
  rw [← wcOptPairs_eq_spec]
  simp [hchain, htext, jsToString]

/-- Witness for C6 at the spec's example
`\x7btype: "wordcloud", text: "a b c", maxNumWords: 5\x7d`: the URL carries
`text=a+b+c` and `maxNumWords=5` and no other optional parameter. -/
theorem wordcloud_url_witness :
    generateChart (.obj [("type", .str "wordcloud"), ("text", .str "a b c"),
                         ("maxNumWords", .num 5)])
      = .ok "https://quickchart.io/wordcloud?text=a+b+c&maxNumWords=5" := by
  have h := wordcloud_url
    (.obj [("type", .str "wordcloud"), ("text", .str "a b c"), ("maxNumWords", .num 5)])
    [("type", .str "wordcloud"), ("text", .str "a b c"), ("maxNumWords", .num 5)]
    "a b c" rfl (by decide) (by decide) (by decide)
  rw [h]
  exact congrArg Except.ok (by decide)

/-- **C6 (counterexample).** `width: 0` is present in the raw arguments, yet
the generated wordcloud URL omits the `width` parameter entirely (the code
gates on truthiness, not on presence). -/
theorem wordcloud_present_falsy_param_omitted :
    objGet [("type", .str "wordcloud"), ("text", .str "hi"), ("width", .num 0)]
        "width" = some (.num 0)
    ∧ generateChart (.obj [("type", .str "wordcloud"), ("text", .str "hi"),
                           ("width", .num 0)])
        = .ok "https://quickchart.io/wordcloud?text=hi"
    ∧ ¬ List.IsInfix "width".data "https://quickchart.io/wordcloud?text=hi".data := by
  exact ⟨rfl, rfl, by decide⟩

/-! ## C7: the graphviz URL -/

/-- **C7 (amended).** For a graphviz request with a truthy (nonempty) string
`dot`, the output URL is the graph endpoint with the percent-encoded DOT
string as the `graph` parameter plus `layout` and `format` parameters
defaulting to `dot` and `png`; when `dot` is absent or not a string,
`generate_chart` fails with InvalidParams.  (The claim's "a string dot" is
corrected to "a nonempty string dot": the empty string is falsy and rejected
— see the counterexample.) -/
theorem graphviz_url (args : JsonVal) (fields : List (String × JsonVal))
    (hargs : args = .obj fields)
    (hty : objGet fields "type" = some (.str "graphviz")) :
    (∀ d : String, objGet fields "dot" = some (.str d) → d ≠ "" →
      generateChart args = .ok (QUICKCHART_GRAPHVIZ_URL ++ "?graph=" ++
        encodeURIComponent d ++
        "&layout=" ++ jsToString (jsOr (objGet fields "graphvizLayout") (.str "dot")) ++
        "&format=" ++ jsToString (jsOr (objGet fields "graphvizFormat") (.str "png"))))
    ∧ ((∀ s, objGet fields "dot" ≠ some (.str s)) →
      generateChart args =
        .error (invalid "DOT language code is required for graphviz charts")) := by
  have hcfg := generateChartConfig_placeholder args fields (.str "graphviz") hargs hty
    (by decide) (Or.inl rfl)
  subst hargs
  have h1 : jsGet (JsonVal.obj [("type", JsonVal.str "graphviz")]) "type"
      = some (JsonVal.str "graphviz") := rfl
  have hchain : optChainGet (some (JsonVal.obj fields)) "dot" = objGet fields "dot" := rfl
  constructor
  · intro d hdot hne
    have htr : truthy (JsonVal.str d) = true := by simp [truthy, hne]
    unfold generateChart
    rw [hcfg]
    show generateChartUrl (.obj [("type", .str "graphviz")]) (some (.obj fields)) = _
    unfold generateChartUrl
    rw [h1, if_pos rfl]
    have hcneg : ¬ (¬ truthyOpt (optChainGet (some (JsonVal.obj fields)) "dot") = true
        ∨ ¬ isStringOpt (optChainGet (some (JsonVal.obj fields)) "dot") = true) := by
      simp [hchain, hdot, htr, isStringOpt]
    rw [if_neg hcneg]
    simp [hchain, hdot, jsToString, optChainGet]
  · intro hnd
    unfold generateChart
    rw [hcfg]
    show generateChartUrl (.obj [("type", .str "graphviz")]) (some (.obj fields)) = _
    unfold generateChartUrl
    rw [h1, if_pos rfl]
    have hcond : (¬ truthyOpt (optChainGet (some (JsonVal.obj fields)) "dot") = true
        ∨ ¬ isStringOpt (optChainGet (some (JsonVal.obj fields)) "dot") = true) := by
      rw [hchain]
      rcases hdot : objGet fields "dot" with _ | v
      · left; simp
      · cases v <;>
          first
          | (right; simp [isStringOpt]; done)
          | (exact absurd hdot (hnd _))
    rw [if_pos hcond]

/-- Witness for C7 at the spec's example DOT program (URL with the
percent-encoded DOT string and defaulted `layout=dot`, `format=png`) and at
a dot-less request (InvalidParams). -/
theorem graphviz_url_witness :
    generateChart (.obj [("type", .str "graphviz"),
                         ("dot", .str "digraph G \x7b A -> B; \x7d")])
      = .ok "https://quickchart.io/graphviz?graph=digraph%20G%20%7B%20A%20-%3E%20B%3B%20%7D&layout=dot&format=png"
    ∧ generateChart (.obj [("type", .str "graphviz")])
      = .error (invalid "DOT language code is required for graphviz charts") := by
  constructor
  · have h := (graphviz_url
      (.obj [("type", .str "graphviz"), ("dot", .str "digraph G \x7b A -> B; \x7d")])
      [("type", .str "graphviz"), ("dot", .str "digraph G \x7b A -> B; \x7d")]
      rfl (by decide)).1 "digraph G \x7b A -> B; \x7d" (by decide) (by decide)
    rw [h]
    exact congrArg Except.ok (by decide)
  · exact (graphviz_url (.obj [("type", .str "graphviz")]) [("type", .str "graphviz")]
      rfl (by decide)).2
      (fun s h => by
        rw [show objGet [("type", JsonVal.str "graphviz")] "dot" = none from rfl] at h
        exact Option.noConfusion h)

/-- **C7 (counterexample).** `dot` set to the empty string is a string, yet
`generate_chart` fails with InvalidParams instead of producing a URL (the
encoder gates on truthiness). -/
theorem graphviz_empty_dot_rejected :
    objGet [("type", .str "graphviz"), ("dot", .str "")] "dot" = some (.str "")
    ∧ generateChart (.obj [("type", .str "graphviz"), ("dot", .str "")])
        = .error (invalid "DOT language code is required for graphviz charts") := by
  exact ⟨rfl, rfl⟩

/-! ## C8: `download_chart` config normalization -/

theorem objGet_cons_ne (k1 : String) (v1 : JsonVal) (rest : List (String × JsonVal))
    (k : String) (h : ¬ k1 = k) : objGet ((k1, v1) :: rest) k = objGet rest k := by
  simp [objGet, h]

theorem objGet_cons_self (k : String) (v1 : JsonVal) (rest : List (String × JsonVal)) :
    objGet ((k, v1) :: rest) k = some v1 := by
  simp [objGet]

theorem hasKey_false {fs : List (String × JsonVal)} {k : String}
    (h : hasKey fs k = false) : objGet fs k = none := by
  unfold hasKey at h
  cases hh : objGet fs k with
  | none => rfl
  | some w => rw [hh] at h; cases h

theorem objGet_map_set (fs : List (String × JsonVal)) (k : String) (v : JsonVal) :
    objGet (fs.map (fun p => if p.1 = k then (k, v) else p)) k =
      if hasKey fs k then some v else none := by
  induction fs with
  | nil => simp [objGet, hasKey]
  | cons p rest ih =>
    obtain ⟨k1, v1⟩ := p
    simp only [List.map_cons]
    by_cases h : k1 = k
    · subst h
      rw [show (if ((k1, v1) : String × JsonVal).1 = k1 then (k1, v) else (k1, v1)) = (k1, v)
          from if_pos rfl]
      rw [objGet_cons_self]
      have : hasKey ((k1, v1) :: rest) k1 = true := by
        simp [hasKey, objGet_cons_self]
      rw [this, if_pos rfl]
    · rw [show (if ((k1, v1) : String × JsonVal).1 = k then (k, v) else (k1, v1)) = (k1, v1)
          from if_neg h]
      rw [objGet_cons_ne _ _ _ _ h, ih]
      have : hasKey ((k1, v1) :: rest) k = hasKey rest k := by
        simp [hasKey, objGet_cons_ne _ _ _ _ h]
      rw [this]

theorem objGet_map_set_ne (fs : List (String × JsonVal)) (k : String) (v : JsonVal)
    (k' : String) (h : ¬ k' = k) :
    objGet (fs.map (fun p => if p.1 = k then (k, v) else p)) k' = objGet fs k' := by
  induction fs with
  | nil => simp [objGet]
  | cons p rest ih =>
    obtain ⟨k1, v1⟩ := p
    simp only [List.map_cons]
    by_cases h1 : k1 = k
    · subst h1
      rw [show (if ((k1, v1) : String × JsonVal).1 = k1 then (k1, v) else (k1, v1)) = (k1, v)
          from if_pos rfl]
      rw [objGet_cons_ne _ _ _ _ (fun hh => h hh.symm),
          objGet_cons_ne _ _ _ _ (fun hh => h hh.symm), ih]
    · rw [show (if ((k1, v1) : String × JsonVal).1 = k then (k, v) else (k1, v1)) = (k1, v1)
          from if_neg h1]
      by_cases h2 : k1 = k'
      · subst h2; rw [objGet_cons_self, objGet_cons_self]
      · rw [objGet_cons_ne _ _ _ _ h2, objGet_cons_ne _ _ _ _ h2, ih]

theorem objGet_objSet_self (fs : List (String × JsonVal)) (k : String) (v : JsonVal) :
    objGet (objSet fs k v) k = some v := by
  unfold objSet
  by_cases h : hasKey fs k
  · rw [if_pos h, objGet_map_set, if_pos h]
  · rw [if_neg h, objGet_append]
    have hnone : objGet fs k = none := hasKey_false (by simpa using h)
    rw [hnone, objGet_cons_self]

theorem objGet_objSet_ne (fs : List (String × JsonVal)) (k : String) (v : JsonVal)
    (k' : String) (h : ¬ k' = k) :
    objGet (objSet fs k v) k' = objGet fs k' := by
  unfold objSet
  by_cases hk : hasKey fs k
  · rw [if_pos hk, objGet_map_set_ne _ _ _ _ h]
  · rw [if_neg hk, objGet_append]
    cases hh : objGet fs k' with
    | some w => rfl
    | none => rw [objGet_cons_ne _ _ _ _ (fun hh2 => h hh2.symm)]; rfl

/-- Reading the lifted key after `liftFromData`. -/
theorem liftFromData_self (config : JsonVal) (fs : List (String × JsonVal)) (key : String) :
    objGet (liftFromData config fs key) key =
      match jsGet config "data" with
      | some dv =>
        if truthy dv = true ∧ typeofObject dv = true ∧ truthyOpt (jsGet dv key) = true
            ∧ ¬ truthyOpt (objGet fs key) = true
          then some ((jsGet dv key).getD .undef) else objGet fs key
      | none => objGet fs key := by
  unfold liftFromData
  cases h : jsGet config "data" with
  | none => rfl
  | some dv =>
    dsimp only
    by_cases hc : truthy dv = true ∧ typeofObject dv = true ∧ truthyOpt (jsGet dv key) = true
        ∧ ¬ truthyOpt (objGet fs key) = true
    · rw [if_pos hc, if_pos hc, objGet_objSet_self]
    · rw [if_neg hc, if_neg hc]

/-- Other keys are untouched by `liftFromData`. -/
theorem liftFromData_ne (config : JsonVal) (fs : List (String × JsonVal))
    (key k' : String) (h : ¬ k' = key) :
    objGet (liftFromData config fs key) k' = objGet fs k' := by
  unfold liftFromData
  cases hd : jsGet config "data" with
  | none => rfl
  | some dv =>
    dsimp only
    by_cases hc : truthy dv = true ∧ typeofObject dv = true ∧ truthyOpt (jsGet dv key) = true
        ∧ ¬ truthyOpt (objGet fs key) = true
    · rw [if_pos hc, objGet_objSet_ne _ _ _ _ h]
    · rw [if_neg hc]

/-- Characterization of the `download_chart` normalization at the three
lifted keys: the nested value wins exactly when it is truthy, `data` is a
truthy object, and the top-level field is falsy; otherwise the top-level
value (possibly absent) is kept. -/
theorem normalizeConfig_get (cf : List (String × JsonVal)) (key : String)
    (hkey : key = "datasets" ∨ key = "labels" ∨ key = "type") :
    jsGet (normalizeConfig (.obj cf)) key =
      match objGet cf "data" with
      | some dv =>
        if truthy dv = true ∧ typeofObject dv = true ∧ truthyOpt (jsGet dv key) = true
            ∧ ¬ truthyOpt (objGet cf key) = true
          then some ((jsGet dv key).getD .undef) else objGet cf key
      | none => objGet cf key := by
  rcases hkey with hk | hk | hk <;> subst hk <;>
    simp only [normalizeConfig, jsGet_obj] <;> dsimp only [spreadVal]
  · rw [liftFromData_ne _ _ "type" "datasets" (by decide),
      liftFromData_ne _ _ "labels" "datasets" (by decide),
      liftFromData_self]
    rfl
  · rw [liftFromData_ne _ _ "type" "labels" (by decide), liftFromData_self,
      liftFromData_ne _ _ "datasets" "labels" (by decide)]
    rfl
  · rw [liftFromData_self, liftFromData_ne _ _ "labels" "type" (by decide),
      liftFromData_ne _ _ "datasets" "type" (by decide)]
    rfl

/-- **C8 (amended).** `download_chart` lifts `datasets`/`labels`/`type` from
a nested `data` object to top level only where the top-level field is falsy
(in particular where it is absent) — a truthy top-level field wins — and a
config nesting `datasets` under `data` with none at top level runs
identically (producing the same URL) to the equivalent flat config.  (The
claim's "absent … top-level wins on conflict" is corrected to "falsy": a
present-but-falsy top-level field is overwritten by the nested one — see the
counterexample.) -/
theorem download_config_normalization :
    (∀ (cf : List (String × JsonVal)) (key : String),
      key = "datasets" ∨ key = "labels" ∨ key = "type" →
      (truthyOpt (objGet cf key) = true →
        jsGet (normalizeConfig (.obj cf)) key = objGet cf key)
      ∧ (truthyOpt (objGet cf key) = false →
        ∀ dfs, objGet cf "data" = some (.obj dfs) → truthyOpt (objGet dfs key) = true →
          jsGet (normalizeConfig (.obj cf)) key = objGet dfs key))
    ∧ (∀ (tv dv : JsonVal) (env : Env) (p : Option String),
        truthy tv = true → truthy dv = true →
        downloadChart env (.obj [("type", tv), ("data", .obj [("datasets", dv)])]) p
          = downloadChart env (.obj [("type", tv), ("datasets", dv)]) p) := by
  constructor
  · intro cf key hkey
    rw [normalizeConfig_get cf key hkey]
    constructor
    · intro htr
      cases hd : objGet cf "data" with
      | none => rfl
      | some dv =>
        dsimp only
        rw [if_neg (by simp [htr])]
    · intro hfal dfs hdfs htr
      obtain ⟨w, hw⟩ : ∃ w, objGet dfs key = some w := by
        cases hh : objGet dfs key with
        | none => rw [hh] at htr; cases htr
        | some w => exact ⟨w, rfl⟩
      rw [hdfs]
      dsimp only
      rw [if_pos ⟨rfl, rfl, by simpa using htr, by simp [hfal]⟩]
      simp [hw]
  · intro tv dv env p htv hdv
    have hn1 : normalizeConfig (.obj [("type", tv), ("data", .obj [("datasets", dv)])])
        = .obj [("type", tv), ("data", .obj [("datasets", dv)]), ("datasets", dv)] := by
      simp [normalizeConfig, liftFromData, spreadVal, jsGet, objGet, objSet, hasKey,
        typeofObject, htv, hdv]
    have hn2 : normalizeConfig (.obj [("type", tv), ("datasets", dv)])
        = .obj [("type", tv), ("datasets", dv)] := by
      simp [normalizeConfig, liftFromData, spreadVal, jsGet, objGet]
    have hgen : generateChartConfig
          (.obj [("type", tv), ("data", .obj [("datasets", dv)]), ("datasets", dv)])
        = generateChartConfig (.obj [("type", tv), ("datasets", dv)]) := by
      unfold generateChartConfig
      simp [jsGet, objGet, datasetsListOf, gaugeFirst, builtConfig, baseOptions,
        titleFields, spreadVal, optChainIdx, optChainGet]
    have hro : resolveOutputPath env
          (.obj [("type", tv), ("data", .obj [("datasets", dv)]), ("datasets", dv)]) p
        = resolveOutputPath env (.obj [("type", tv), ("datasets", dv)]) p := by
      unfold resolveOutputPath
      cases p <;> simp [jsGet, objGet]
    unfold downloadChart
    rw [hn1, hn2]
    simp [hgen, hro, jsGet, objGet, typeofObject]

/-- **C8 (counterexample).** With `datasets: false` present at top level and
real datasets nested under `data`, the normalization overwrites the
present top-level field with the nested one (the code gates on falsiness,
not absence, so "top-level wins on conflict" fails). -/
theorem download_config_lift_overwrites_present_falsy :
    objGet [("type", .str "bar"), ("datasets", .bool false),
            ("data", .obj [("datasets", .arr [.obj [("data", .arr [.num 1])]])])]
        "datasets" = some (.bool false)
    ∧ jsGet (normalizeConfig
        (.obj [("type", .str "bar"), ("datasets", .bool false),
               ("data", .obj [("datasets", .arr [.obj [("data", .arr [.num 1])]])])]))
        "datasets" = some (.arr [.obj [("data", .arr [.num 1])]]) := by
  exact ⟨rfl, rfl⟩

/-- Witness: the normalization theorem instantiated on a concrete nested
config (datasets under `data`, none at top level) and a concrete
environment. -/
theorem download_config_normalization_witness :
    jsGet (normalizeConfig (.obj [("type", .str "bar"),
        ("data", .obj [("datasets", .arr [.num 1])])])) "datasets"
      = objGet [("datasets", .arr [.num 1])] "datasets"
    ∧ downloadChart ⟨fun _ => true, "/home/u", "TS"⟩
        (.obj [("type", .str "bar"), ("data", .obj [("datasets", .arr [.num 1])])])
        (some "/tmp/c.png")
      = downloadChart ⟨fun _ => true, "/home/u", "TS"⟩
        (.obj [("type", .str "bar"), ("datasets", .arr [.num 1])]) (some "/tmp/c.png") :=
  ⟨(download_config_normalization.1
      [("type", .str "bar"), ("data", .obj [("datasets", .arr [.num 1])])] "datasets"
      (Or.inl rfl)).2 (by decide) [("datasets", .arr [.num 1])] (by decide) (by decide),
   download_config_normalization.2 (.str "bar") (.arr [.num 1])
     ⟨fun _ => true, "/home/u", "TS"⟩ (some "/tmp/c.png") (by decide) (by decide)⟩

/-! ## C9: the writability check precedes the build -/

/-- **C9.** For any config passing normalization (`type` and `datasets`
truthy after lifting) whose resolved output directory is not writable,
`download_chart` fails with InvalidParams naming that directory.  The
hypotheses do not require the chart configuration to be buildable: the
writability failure wins even when the builder would reject the config,
which is exactly the observable content of "the check happens before the
chart configuration is built". -/
theorem download_unwritable_dir (env : Env) (config : JsonVal) (p : Option String)
    (hc : truthy config = true) (hobj : typeofObject config = true)
    (ht : truthyOpt (jsGet (normalizeConfig config) "type") = true)
    (hd : truthyOpt (jsGet (normalizeConfig config) "datasets") = true)
    (hw : env.writable (dirname (resolveOutputPath env (normalizeConfig config) p)) = false) :
    downloadChart env config p = .error (invalid
      ("Output directory does not exist or is not writable: "
        ++ dirname (resolveOutputPath env (normalizeConfig config) p))) := by
  simp only [downloadChart]
  simp [hc, hobj, ht, hd, hw]

/-- Witness for C9: an everywhere-unwritable filesystem and a config whose
chart type the builder would reject (`nosuchtype`) still produce the
writability InvalidParams error, for the user-supplied path
`/tmp/chart.png` whose directory is `/tmp`. -/
theorem download_unwritable_dir_witness :
    downloadChart ⟨fun _ => false, "/home/u", "TS"⟩
        (.obj [("type", .str "nosuchtype"),
               ("datasets", .arr [.obj [("data", .arr [.num 1])]])])
        (some "/tmp/chart.png")
      = .error (invalid "Output directory does not exist or is not writable: /tmp") := by
  have h := download_unwritable_dir ⟨fun _ => false, "/home/u", "TS"⟩
    (.obj [("type", .str "nosuchtype"),
           ("datasets", .arr [.obj [("data", .arr [.num 1])]])])
    (some "/tmp/chart.png") rfl rfl (by decide) (by decide) rfl
  rw [h]
  rfl

/-! ## C10: `download_chart` can never fetch graphviz/wordcloud charts -/

/-- Any download of a config whose normalized type is a given
graphviz/wordcloud string ends in InvalidParams before the fetch step. -/
theorem downloadChart_placeholder_fails (env : Env) (config : JsonVal)
    (p : Option String) (t : String)
    (ht : jsGet (normalizeConfig config) "type" = some (.str t))
    (hgw : t = "graphviz" ∨ t = "wordcloud") :
    ∃ msg, downloadChart env config p = .error (invalid msg) := by
  have htr : truthy (JsonVal.str t) = true := by
    rcases hgw with h | h <;> subst h <;> decide
  by_cases h1 : (¬ truthy config = true ∨ ¬ typeofObject config = true)
  · exact ⟨_, by simp only [downloadChart]; rw [if_pos h1]⟩
  · by_cases h2 : (¬ truthyOpt (jsGet (normalizeConfig config) "type") = true
        ∨ ¬ truthyOpt (jsGet (normalizeConfig config) "datasets") = true)
    · exact ⟨_, by simp only [downloadChart]; rw [if_neg h1, if_pos h2]⟩
    · by_cases h3 : (¬ env.writable
          (dirname (resolveOutputPath env (normalizeConfig config) p)) = true)
      · exact ⟨_, by simp only [downloadChart]; rw [if_neg h1, if_neg h2, if_pos h3]⟩
      · have hcfg : generateChartConfig (normalizeConfig config)
            = .ok (.obj [("type", .str t)]) := by
          refine generateChartConfig_placeholder (normalizeConfig config)
            (liftFromData config
              (liftFromData config
                (liftFromData config (spreadVal config) "datasets") "labels") "type")
            (.str t) rfl ?_ htr ?_
          · exact ht
          · rcases hgw with h | h <;> subst h <;> simp
        obtain ⟨m, hm⟩ : ∃ m, generateChartUrl (.obj [("type", .str t)]) none
            = .error (invalid m) := by
          rcases hgw with h | h <;> subst h <;> exact ⟨_, rfl⟩
        refine ⟨m, ?_⟩
        simp only [downloadChart]
        rw [if_neg h1, if_neg h2, if_neg h3]
        simp [hcfg, hm]

/-- **C10.** For every config whose normalized `type` is `graphviz` or
`wordcloud`, `download_chart` always fails with InvalidParams and never
reaches the fetch/write step (an `.ok` result is exactly "reached the
fetch"): the download path calls the URL encoder without the raw arguments,
so the encoder's re-check of `dot`/`text` necessarily fails even when the
earlier stages pass. -/
theorem download_graphviz_wordcloud_always_fails (env : Env) (config : JsonVal)
    (p : Option String)
    (h : jsGet (normalizeConfig config) "type" = some (.str "graphviz")
      ∨ jsGet (normalizeConfig config) "type" = some (.str "wordcloud")) :
    ∃ msg, downloadChart env config p = .error (invalid msg) := by
  rcases h with h | h
  · exact downloadChart_placeholder_fails env config p "graphviz" h (Or.inl rfl)
  · exact downloadChart_placeholder_fails env config p "wordcloud" h (Or.inr rfl)

/-- Witness for C10: a graphviz config that passes normalization (it even
carries datasets and a `dot` program) and an everywhere-writable filesystem
still fail with InvalidParams. -/
theorem download_graphviz_wordcloud_always_fails_witness :
    ∃ msg, downloadChart ⟨fun _ => true, "/home/u", "TS"⟩
        (.obj [("type", .str "graphviz"),
               ("datasets", .arr [.obj [("data", .arr [.num 1])]]),
               ("dot", .str "digraph")])
        (some "/tmp/c.png")
      = .error (invalid msg) :=
  download_graphviz_wordcloud_always_fails ⟨fun _ => true, "/home/u", "TS"⟩
    (.obj [("type", .str "graphviz"),
           ("datasets", .arr [.obj [("data", .arr [.num 1])]]),
           ("dot", .str "digraph")])
    (some "/tmp/c.png") (Or.inl (by decide))

/-! ## C1 machinery, part 1: characters and decimal digits -/

theorem toNat_ofNat_valid (n : Nat) (h : Nat.isValidChar n) : (Char.ofNat n).toNat = n := by
  unfold Char.ofNat
  rw [dif_pos h]
  rfl

theorem toNat_ofNat_small (n : Nat) (h : n < 55296) : (Char.ofNat n).toNat = n :=
  toNat_ofNat_valid n (Or.inl h)

theorem char_valid_ranges (c : Char) :
    c.toNat < 55296 ∨ (57343 < c.toNat ∧ c.toNat < 1114112) := c.valid

theorem isDigitC_iff (c : Char) : isDigitC c = true ↔ 48 ≤ c.toNat ∧ c.toNat ≤ 57 := by
  simp [isDigitC]

theorem natToCharsAux_stable : ∀ (n fuel fuel' : Nat), n < fuel → n < fuel' →
    natToCharsAux fuel n = natToCharsAux fuel' n := by
  intro n
  induction n using Nat.strong_induction_on with
  | _ n ih =>
    intro fuel fuel' h h'
    obtain ⟨f, rfl⟩ : ∃ f, fuel = f + 1 := ⟨fuel - 1, by omega⟩
    obtain ⟨f', rfl⟩ : ∃ f', fuel' = f' + 1 := ⟨fuel' - 1, by omega⟩
    simp only [natToCharsAux]
    by_cases h10 : n < 10
    · rw [if_pos h10, if_pos h10]
    · rw [if_neg h10, if_neg h10, ih (n / 10) (by omega) f f' (by omega) (by omega)]

theorem natToChars_unfold (n : Nat) : natToChars n =
    if n < 10 then [Char.ofNat (48 + n)]
    else natToChars (n / 10) ++ [Char.ofNat (48 + n % 10)] := by
  have h1 : natToChars n =
      if n < 10 then [Char.ofNat (48 + n)]
      else natToCharsAux n (n / 10) ++ [Char.ofNat (48 + n % 10)] := rfl
  rw [h1]
  by_cases h10 : n < 10
  · rw [if_pos h10, if_pos h10]
  · rw [if_neg h10, if_neg h10,
      natToCharsAux_stable (n / 10) n (n / 10 + 1) (by omega) (by omega)]
    rfl

theorem natToChars_ne_nil (n : Nat) : natToChars n ≠ [] := by
  rw [natToChars_unfold]
  split <;> simp

theorem natToChars_digits (n : Nat) : ∀ c ∈ natToChars n, isDigitC c = true := by
  induction n using Nat.strong_induction_on with
  | _ n ih =>
    rw [natToChars_unfold]
    by_cases h10 : n < 10
    · rw [if_pos h10]
      intro c hc
      simp at hc
      subst hc
      rw [isDigitC_iff, toNat_ofNat_small _ (by omega)]
      omega
    · rw [if_neg h10]
      intro c hc
      rcases List.mem_append.mp hc with h | h
      · exact ih (n / 10) (by omega) c h
      · simp at h
        subst h
        rw [isDigitC_iff, toNat_ofNat_small _ (by omega)]
        omega

theorem digitsToNat_append (l1 l2 : List Char) : ∀ acc,
    digitsToNat acc (l1 ++ l2) = digitsToNat (digitsToNat acc l1) l2 := by
  induction l1 with
  | nil => intro acc; rfl
  | cons c rest ih =>
    intro acc
    show digitsToNat (acc * 10 + (c.toNat - 48)) (rest ++ l2) = _
    rw [ih]
    rfl

theorem digitsToNat_natToChars (n : Nat) : ∀ acc,
    digitsToNat acc (natToChars n) = acc * 10 ^ (natToChars n).length + n := by
  induction n using Nat.strong_induction_on with
  | _ n ih =>
    intro acc
    rw [natToChars_unfold]
    by_cases h10 : n < 10
    · rw [if_pos h10]
      rw [show digitsToNat acc [Char.ofNat (48 + n)]
          = acc * 10 + ((Char.ofNat (48 + n)).toNat - 48) from rfl]
      rw [toNat_ofNat_small _ (by omega)]
      rw [show ([Char.ofNat (48 + n)] : List Char).length = 1 from rfl, pow_one]
      omega
    · rw [if_neg h10, digitsToNat_append, ih (n / 10) (by omega)]
      rw [show digitsToNat (acc * 10 ^ (natToChars (n / 10)).length + n / 10)
            [Char.ofNat (48 + n % 10)]
          = (acc * 10 ^ (natToChars (n / 10)).length + n / 10) * 10
            + ((Char.ofNat (48 + n % 10)).toNat - 48) from rfl]
      rw [toNat_ofNat_small _ (by omega)]
      rw [List.length_append]
      rw [show ([Char.ofNat (48 + n % 10)] : List Char).length = 1 from rfl]
      rw [Nat.pow_succ]
      rw [show 48 + n % 10 - 48 = n % 10 from by omega]
      have e1 : (acc * 10 ^ (natToChars (n / 10)).length + n / 10) * 10 + n % 10
          = acc * (10 ^ (natToChars (n / 10)).length * 10) + (n / 10 * 10 + n % 10) := by
        ring
      rw [e1, show n / 10 * 10 + n % 10 = n from by omega]

/-- A list that does not begin with a decimal digit (boundary condition for
number parsing). -/
def noDigitHead : List Char → Prop
  | [] => True
  | c :: _ => isDigitC c = false

theorem takeWhile_all_append (p : Char → Bool) (l1 l2 : List Char)
    (h : ∀ c ∈ l1, p c = true) :
    (l1 ++ l2).takeWhile p = l1 ++ l2.takeWhile p
    ∧ (l1 ++ l2).dropWhile p = l2.dropWhile p := by
  induction l1 with
  | nil => simp
  | cons c rest ih =>
    have hc := h c (by simp)
    have := ih (fun x hx => h x (by simp [hx]))
    simp [List.takeWhile, List.dropWhile, hc, this.1, this.2]

theorem parseNatChars_natToChars (n : Nat) (rest : List Char) (hrest : noDigitHead rest) :
    parseNatChars (natToChars n ++ rest) = some (n, rest) := by
  unfold parseNatChars
  have hrw := takeWhile_all_append isDigitC (natToChars n) rest (natToChars_digits n)
  have h2 : rest.takeWhile isDigitC = [] ∧ rest.dropWhile isDigitC = rest := by
    cases rest with
    | nil => simp
    | cons c cs =>
      unfold noDigitHead at hrest
      simp [List.takeWhile, List.dropWhile, hrest]
  rw [hrw.1, hrw.2, h2.1, h2.2, List.append_nil]
  have hne : (natToChars n).isEmpty = false := by
    cases h : natToChars n with
    | nil => exact absurd h (natToChars_ne_nil n)
    | cons a b => simp
  rw [if_neg (by simp [hne])]
  rw [digitsToNat_natToChars]
  simp

/-! ## C1 machinery, part 2: the string-escape round trip -/

theorem hexVal_lhex (d : Nat) (h : d < 16) : hexVal (lhexDigitChar d) = some d := by
  unfold lhexDigitChar hexVal
  by_cases h10 : d < 10
  · rw [if_pos h10, toNat_ofNat_small _ (by omega), if_pos (by omega)]
    rw [show 48 + d - 48 = d from by omega]
  · rw [if_neg h10, toNat_ofNat_small _ (by omega), if_neg (by omega), if_neg (by omega),
      if_pos (by omega)]
    rw [show 87 + d - 87 = d from by omega]

theorem parseStrF_quote (f : Nat) (tl : List Char) :
    parseStrCharsF (f + 1) (qC :: tl) = some ([], tl) := by
  unfold parseStrCharsF
  rw [if_pos rfl]

theorem parseStrF_esc_quote (f : Nat) (tl : List Char) :
    parseStrCharsF (f + 1) (bsC :: qC :: tl)
      = (parseStrCharsF f tl).map (fun p => (qC :: p.1, p.2)) := by
  conv_lhs => unfold parseStrCharsF
  rw [if_neg (by decide), if_pos rfl]
  try dsimp only
  rw [if_pos rfl]

theorem parseStrF_esc_backslash (f : Nat) (tl : List Char) :
    parseStrCharsF (f + 1) (bsC :: bsC :: tl)
      = (parseStrCharsF f tl).map (fun p => (bsC :: p.1, p.2)) := by
  conv_lhs => unfold parseStrCharsF
  rw [if_neg (by decide), if_pos rfl]
  try dsimp only
  rw [if_neg (by decide), if_pos rfl]

theorem parseStrF_esc_b (f : Nat) (tl : List Char) :
    parseStrCharsF (f + 1) (bsC :: 'b' :: tl)
      = (parseStrCharsF f tl).map (fun p => (Char.ofNat 8 :: p.1, p.2)) := by
  conv_lhs => unfold parseStrCharsF
  rw [if_neg (by decide), if_pos rfl]
  try dsimp only
  rw [if_neg (by decide), if_neg (by decide), if_neg (by decide), if_pos rfl]

theorem parseStrF_esc_t (f : Nat) (tl : List Char) :
    parseStrCharsF (f + 1) (bsC :: 't' :: tl)
      = (parseStrCharsF f tl).map (fun p => (Char.ofNat 9 :: p.1, p.2)) := by
  conv_lhs => unfold parseStrCharsF
  rw [if_neg (by decide), if_pos rfl]
  try dsimp only
  rw [if_neg (by decide), if_neg (by decide), if_neg (by decide), if_neg (by decide),
    if_pos rfl]

theorem parseStrF_esc_n (f : Nat) (tl : List Char) :
    parseStrCharsF (f + 1) (bsC :: 'n' :: tl)
      = (parseStrCharsF f tl).map (fun p => (Char.ofNat 10 :: p.1, p.2)) := by
  conv_lhs => unfold parseStrCharsF
  rw [if_neg (by decide), if_pos rfl]
  try dsimp only
  rw [if_neg (by decide), if_neg (by decide), if_neg (by decide), if_neg (by decide),
    if_neg (by decide), if_pos rfl]

theorem parseStrF_esc_f (f : Nat) (tl : List Char) :
    parseStrCharsF (f + 1) (bsC :: 'f' :: tl)
      = (parseStrCharsF f tl).map (fun p => (Char.ofNat 12 :: p.1, p.2)) := by
  conv_lhs => unfold parseStrCharsF
  rw [if_neg (by decide), if_pos rfl]
  try dsimp only
  rw [if_neg (by decide), if_neg (by decide), if_neg (by decide), if_neg (by decide),
    if_neg (by decide), if_neg (by decide), if_pos rfl]

theorem parseStrF_esc_r (f : Nat) (tl : List Char) :
    parseStrCharsF (f + 1) (bsC :: 'r' :: tl)
      = (parseStrCharsF f tl).map (fun p => (Char.ofNat 13 :: p.1, p.2)) := by
  conv_lhs => unfold parseStrCharsF
  rw [if_neg (by decide), if_pos rfl]
  try dsimp only
  rw [if_neg (by decide), if_neg (by decide), if_neg (by decide), if_neg (by decide),
    if_neg (by decide), if_neg (by decide), if_neg (by decide), if_pos rfl]

theorem parseStrF_esc_control (f : Nat) (c : Char) (h : c.toNat < 32) (tl : List Char) :
    parseStrCharsF (f + 1) (bsC :: 'u' :: '0' :: '0'
        :: lhexDigitChar (c.toNat / 16) :: lhexDigitChar (c.toNat % 16) :: tl)
      = (parseStrCharsF f tl).map (fun p => (c :: p.1, p.2)) := by
  conv_lhs => unfold parseStrCharsF
  rw [if_neg (by decide), if_pos rfl]
  try dsimp only
  rw [if_neg (by decide), if_neg (by decide), if_neg (by decide), if_neg (by decide),
    if_neg (by decide), if_neg (by decide), if_neg (by decide), if_neg (by decide),
    if_pos rfl]
  try dsimp only
  have hx : hex4 '0' '0' (lhexDigitChar (c.toNat / 16)) (lhexDigitChar (c.toNat % 16))
      = some c.toNat := by
    unfold hex4
    rw [show hexVal '0' = some 0 from by decide,
      hexVal_lhex (c.toNat / 16) (by omega), hexVal_lhex (c.toNat % 16) (by omega)]
    try dsimp only
    rw [show ((0 * 16 + 0) * 16 + c.toNat / 16) * 16 + c.toNat % 16 = c.toNat from by omega]
  rw [hx]
  try dsimp only
  rw [if_pos (Or.inl (by omega)), Char.ofNat_toNat]

theorem parseStrF_default (f : Nat) (c : Char) (h1 : ¬ c = qC) (h2 : ¬ c = bsC)
    (h3 : ¬ c.toNat < 32) (tl : List Char) :
    parseStrCharsF (f + 1) (c :: tl)
      = (parseStrCharsF f tl).map (fun p => (c :: p.1, p.2)) := by
  conv_lhs => unfold parseStrCharsF
  rw [if_neg h1, if_neg h2, if_neg h3]

theorem parseStrCharsF_escape (cs : List Char) (rest : List Char) : ∀ f,
    (cs.flatMap escapeChar ++ qC :: rest).length ≤ f →
    parseStrCharsF f (cs.flatMap escapeChar ++ qC :: rest) = some (cs, rest) := by
  induction cs with
  | nil =>
    intro f hf
    simp only [List.flatMap_nil, List.nil_append] at hf ⊢
    obtain ⟨g, rfl⟩ : ∃ g, f = g + 1 := ⟨f - 1, by simp at hf; omega⟩
    exact parseStrF_quote g rest
  | cons c cs' ih =>
    intro f hf
    rw [List.flatMap_cons, List.append_assoc] at hf ⊢
    have hlen : 1 ≤ (escapeChar c).length := by
      unfold escapeChar
      repeat' split
      all_goals simp
    obtain ⟨g, rfl⟩ : ∃ g, f = g + 1 := by
      refine ⟨f - 1, ?_⟩
      rw [List.length_append] at hf
      omega
    have hg : (cs'.flatMap escapeChar ++ qC :: rest).length ≤ g := by
      rw [List.length_append] at hf
      omega
    by_cases e1 : c = qC
    · subst e1
      rw [show escapeChar qC = [bsC, qC] from by decide]
      show parseStrCharsF (g + 1) (bsC :: qC :: _) = _
      rw [parseStrF_esc_quote, show ([] : List Char).append (cs'.flatMap escapeChar ++ qC :: rest) = cs'.flatMap escapeChar ++ qC :: rest from rfl, ih g hg]; rfl
    · by_cases e2 : c = bsC
      · subst e2
        rw [show escapeChar bsC = [bsC, bsC] from by decide]
        show parseStrCharsF (g + 1) (bsC :: bsC :: _) = _
        rw [parseStrF_esc_backslash, show ([] : List Char).append (cs'.flatMap escapeChar ++ qC :: rest) = cs'.flatMap escapeChar ++ qC :: rest from rfl, ih g hg]; rfl
      · by_cases e3 : c = Char.ofNat 8
        · subst e3
          rw [show escapeChar (Char.ofNat 8) = [bsC, 'b'] from by decide]
          show parseStrCharsF (g + 1) (bsC :: 'b' :: _) = _
          rw [parseStrF_esc_b, show ([] : List Char).append (cs'.flatMap escapeChar ++ qC :: rest) = cs'.flatMap escapeChar ++ qC :: rest from rfl, ih g hg]; rfl
        · by_cases e4 : c = Char.ofNat 9
          · subst e4
            rw [show escapeChar (Char.ofNat 9) = [bsC, 't'] from by decide]
            show parseStrCharsF (g + 1) (bsC :: 't' :: _) = _
            rw [parseStrF_esc_t, show ([] : List Char).append (cs'.flatMap escapeChar ++ qC :: rest) = cs'.flatMap escapeChar ++ qC :: rest from rfl, ih g hg]; rfl
          · by_cases e5 : c = Char.ofNat 10
            · subst e5
              rw [show escapeChar (Char.ofNat 10) = [bsC, 'n'] from by decide]
              show parseStrCharsF (g + 1) (bsC :: 'n' :: _) = _
              rw [parseStrF_esc_n, show ([] : List Char).append (cs'.flatMap escapeChar ++ qC :: rest) = cs'.flatMap escapeChar ++ qC :: rest from rfl, ih g hg]; rfl
            · by_cases e6 : c = Char.ofNat 12
              · subst e6
                rw [show escapeChar (Char.ofNat 12) = [bsC, 'f'] from by decide]
                show parseStrCharsF (g + 1) (bsC :: 'f' :: _) = _
                rw [parseStrF_esc_f, show ([] : List Char).append (cs'.flatMap escapeChar ++ qC :: rest) = cs'.flatMap escapeChar ++ qC :: rest from rfl, ih g hg]; rfl
              · by_cases e7 : c = Char.ofNat 13
                · subst e7
                  rw [show escapeChar (Char.ofNat 13) = [bsC, 'r'] from by decide]
                  show parseStrCharsF (g + 1) (bsC :: 'r' :: _) = _
                  rw [parseStrF_esc_r, show ([] : List Char).append (cs'.flatMap escapeChar ++ qC :: rest) = cs'.flatMap escapeChar ++ qC :: rest from rfl, ih g hg]; rfl
                · by_cases e8 : c.toNat < 32
                  · rw [show escapeChar c = [bsC, 'u', '0', '0',
                        lhexDigitChar (c.toNat / 16), lhexDigitChar (c.toNat % 16)] from by
                      unfold escapeChar
                      rw [if_neg e1, if_neg e2, if_neg e3, if_neg e4, if_neg e5,
                        if_neg e6, if_neg e7, if_pos e8]]
                    show parseStrCharsF (g + 1)
                      (bsC :: 'u' :: '0' :: '0' :: _ :: _ :: _) = _
                    rw [parseStrF_esc_control g c e8, show ([] : List Char).append (cs'.flatMap escapeChar ++ qC :: rest) = cs'.flatMap escapeChar ++ qC :: rest from rfl, ih g hg]; rfl
                  · rw [show escapeChar c = [c] from by
                      unfold escapeChar
                      rw [if_neg e1, if_neg e2, if_neg e3, if_neg e4, if_neg e5,
                        if_neg e6, if_neg e7, if_neg e8]]
                    show parseStrCharsF (g + 1) (c :: _) = _
                    rw [parseStrF_default g c e1 e2 e8, show ([] : List Char).append (cs'.flatMap escapeChar ++ qC :: rest) = cs'.flatMap escapeChar ++ qC :: rest from rfl, ih g hg]; rfl

/-- Parsing the escaped body of a printed JSON string recovers the original
characters and stops at the closing quote. -/
theorem parseStrChars_escape (cs : List Char) (rest : List Char) :
    parseStrChars (cs.flatMap escapeChar ++ qC :: rest) = some (cs, rest) :=
  parseStrCharsF_escape cs rest _ (Nat.le_succ _)

/-! ## C1 machinery, part 3: shape lemmas and parser dispatch -/

theorem intToString_nonneg_data (i : Int) (h : ¬ i < 0) :
    (intToString i).data = natToChars i.toNat := by
  unfold intToString
  rw [if_neg h]
  rfl

theorem intToString_neg_data (i : Int) (h : i < 0) :
    (intToString i).data = '-' :: natToChars i.natAbs := by
  unfold intToString
  rw [if_pos h]
  rfl

theorem isDigit_ne_keywords (c : Char) (h : isDigitC c = true) :
    ¬ c = 'n' ∧ ¬ c = 't' ∧ ¬ c = 'f' ∧ ¬ c = qC ∧ ¬ c = '-' := by
  refine ⟨?_, ?_, ?_, ?_, ?_⟩ <;> (intro he; subst he; exact absurd h (by decide))

theorem isDigit_ne_brackets (c : Char) (h : isDigitC c = true) :
    ¬ c = ']' ∧ ¬ c = rbC ∧ ¬ c = '[' ∧ ¬ c = lbC := by
  refine ⟨?_, ?_, ?_, ?_⟩ <;> (intro he; subst he; exact absurd h (by decide))

theorem printVal_shape (v : JsonVal) : ∃ c tl, printVal v = c :: tl ∧
    (c = 'n' ∨ c = 't' ∨ c = 'f' ∨ c = qC ∨ c = '-' ∨ isDigitC c = true
      ∨ c = '[' ∨ c = lbC) := by
  cases v with
  | null => exact ⟨'n', _, rfl, Or.inl rfl⟩
  | undef => exact ⟨'n', _, rfl, Or.inl rfl⟩
  | fn => exact ⟨'n', _, rfl, Or.inl rfl⟩
  | bool b =>
    cases b with
    | true => exact ⟨'t', _, rfl, Or.inr (Or.inl rfl)⟩
    | false => exact ⟨'f', _, rfl, Or.inr (Or.inr (Or.inl rfl))⟩
  | num i =>
    by_cases h : i < 0
    · refine ⟨'-', natToChars i.natAbs, ?_, by tauto⟩
      show (intToString i).data = _
      rw [intToString_neg_data i h]
    · obtain ⟨c0, tl0, h0⟩ : ∃ c0 tl0, natToChars i.toNat = c0 :: tl0 := by
        cases hh : natToChars i.toNat with
        | nil => exact absurd hh (natToChars_ne_nil _)
        | cons a b => exact ⟨a, b, rfl⟩
      have hd0 : isDigitC c0 = true := natToChars_digits i.toNat c0 (by rw [h0]; simp)
      refine ⟨c0, tl0, ?_, by tauto⟩
      show (intToString i).data = _
      rw [intToString_nonneg_data i h, h0]
  | str s => exact ⟨qC, _, rfl, by tauto⟩
  | arr xs => exact ⟨'[', _, rfl, by tauto⟩
  | obj fs => exact ⟨lbC, _, rfl, by tauto⟩

theorem head_ne_closers (c : Char)
    (h : c = 'n' ∨ c = 't' ∨ c = 'f' ∨ c = qC ∨ c = '-' ∨ isDigitC c = true
      ∨ c = '[' ∨ c = lbC) : ¬ c = ']' ∧ ¬ c = rbC := by
  rcases h with h | h | h | h | h | h | h | h
  all_goals first
  | (subst h; exact ⟨by decide, by decide⟩)
  | (exact ⟨(isDigit_ne_brackets c h).1, (isDigit_ne_brackets c h).2.1⟩)

theorem parseVal_null (f : Nat) (rest : List Char) :
    parseVal (f + 1) ('n' :: 'u' :: 'l' :: 'l' :: rest) = some (.null, rest) := rfl

theorem parseVal_true (f : Nat) (rest : List Char) :
    parseVal (f + 1) ('t' :: 'r' :: 'u' :: 'e' :: rest) = some (.bool true, rest) := rfl

theorem parseVal_false (f : Nat) (rest : List Char) :
    parseVal (f + 1) ('f' :: 'a' :: 'l' :: 's' :: 'e' :: rest)
      = some (.bool false, rest) := rfl

theorem parseVal_quote (f : Nat) (cs : List Char) :
    parseVal (f + 1) (qC :: cs)
      = (parseStrChars cs).map (fun p => (.str ⟨p.1⟩, p.2)) := rfl

theorem parseVal_neg (f : Nat) (cs : List Char) :
    parseVal (f + 1) ('-' :: cs)
      = match parseNatChars cs with
        | some (n, rest) => some (.num (-(n : Int)), rest)
        | none => none := rfl

theorem digit_cases (c : Char) (h : isDigitC c = true) :
    c = '0' ∨ c = '1' ∨ c = '2' ∨ c = '3' ∨ c = '4' ∨ c = '5' ∨ c = '6'
      ∨ c = '7' ∨ c = '8' ∨ c = '9' := by
  rw [isDigitC_iff] at h
  have hn : c.toNat = 48 ∨ c.toNat = 49 ∨ c.toNat = 50 ∨ c.toNat = 51 ∨ c.toNat = 52
      ∨ c.toNat = 53 ∨ c.toNat = 54 ∨ c.toNat = 55 ∨ c.toNat = 56 ∨ c.toNat = 57 := by
    omega
  have hfix := Char.ofNat_toNat c
  rcases hn with h0 | h0 | h0 | h0 | h0 | h0 | h0 | h0 | h0 | h0 <;>
    rw [h0] at hfix <;> rw [← hfix] <;> tauto

theorem parseVal_digit (f : Nat) (c : Char) (cs : List Char) (hd : isDigitC c = true) :
    parseVal (f + 1) (c :: cs)
      = match parseNatChars (c :: cs) with
        | some (n, rest) => some (.num (n : Int), rest)
        | none => none := by
  rcases digit_cases c hd with h | h | h | h | h | h | h | h | h | h <;> subst h <;> rfl

theorem parseVal_lbracket (f : Nat) (cs : List Char) :
    parseVal (f + 1) ('[' :: cs)
      = match cs with
        | ']' :: rest => some (.arr [], rest)
        | _ => (parseElems f cs).map (fun p => (.arr p.1, p.2)) := rfl

theorem parseVal_lbrace (f : Nat) (cs : List Char) :
    parseVal (f + 1) (lbC :: cs)
      = match cs with
        | [] => none
        | c2 :: rest2 =>
          if c2 = rbC then some (.obj [], rest2)
          else (parseFieldsP f (c2 :: rest2)).map (fun p => (.obj p.1, p.2)) := rfl

theorem parseElems_step (f : Nat) (cs : List Char) :
    parseElems (f + 1) cs
      = match parseVal f cs with
        | some (v, rest) =>
          match rest with
          | ']' :: rest2 => some ([v], rest2)
          | ',' :: rest2 => (parseElems f rest2).map (fun p => (v :: p.1, p.2))
          | _ => none
        | none => none := rfl

theorem parseFieldsP_step (f : Nat) (cs : List Char) :
    parseFieldsP (f + 1) cs
      = match cs with
        | [] => none
        | c :: cs2 =>
          if c = qC then
            match parseStrChars cs2 with
            | some (kcs, rest) =>
              match rest with
              | ':' :: rest2 =>
                match parseVal f rest2 with
                | some (v, rest3) =>
                  match rest3 with
                  | [] => none
                  | r :: rest4 =>
                    if r = rbC then some ([(⟨kcs⟩, v)], rest4)
                    else if r = ',' then
                      (parseFieldsP f rest4).map (fun p => ((⟨kcs⟩, v) :: p.1, p.2))
                    else none
                | none => none
              | _ => none
            | none => none
          else none := rfl

theorem parseFieldsP_quote (f : Nat) (cs2 : List Char) :
    parseFieldsP (f + 1) (qC :: cs2)
      = match parseStrChars cs2 with
        | some (kcs, rest) =>
          match rest with
          | ':' :: rest2 =>
            match parseVal f rest2 with
            | some (v, rest3) =>
              match rest3 with
              | [] => none
              | r :: rest4 =>
                if r = rbC then some ([(⟨kcs⟩, v)], rest4)
                else if r = ',' then
                  (parseFieldsP f rest4).map (fun p => ((⟨kcs⟩, v) :: p.1, p.2))
                else none
            | none => none
          | _ => none
        | none => none := rfl

theorem elemPieces_nil_iff (xs : List JsonVal) : elemPieces xs = [] ↔ xs = [] := by
  cases xs <;> simp [elemPieces]

theorem fieldPieces_skip (k : String) (v : JsonVal) (fs : List (String × JsonVal))
    (h : skipVal v = true) : fieldPieces ((k, v) :: fs) = fieldPieces fs := by
  simp [fieldPieces, h]

theorem fieldPieces_keep (k : String) (v : JsonVal) (fs : List (String × JsonVal))
    (h : skipVal v = false) :
    fieldPieces ((k, v) :: fs) = (printString k ++ ':' :: printVal v) :: fieldPieces fs := by
  simp [fieldPieces, h]

theorem canonFields_skip (k : String) (v : JsonVal) (fs : List (String × JsonVal))
    (h : skipVal v = true) : canonFields ((k, v) :: fs) = canonFields fs := by
  simp [canonFields, h]

theorem canonFields_keep (k : String) (v : JsonVal) (fs : List (String × JsonVal))
    (h : skipVal v = false) :
    canonFields ((k, v) :: fs) = (k, canon v) :: canonFields fs := by
  simp [canonFields, h]

theorem fsizeFields_skip (k : String) (v : JsonVal) (fs : List (String × JsonVal))
    (h : skipVal v = true) : fsizeFields ((k, v) :: fs) = fsizeFields fs := by
  simp [fsizeFields, h]

theorem fsizeFields_keep (k : String) (v : JsonVal) (fs : List (String × JsonVal))
    (h : skipVal v = false) :
    fsizeFields ((k, v) :: fs) = 1 + fsize v + fsizeFields fs := by
  simp [fsizeFields, h]

theorem fieldPieces_nil_canon (fs : List (String × JsonVal))
    (h : fieldPieces fs = []) : canonFields fs = [] := by
  induction fs with
  | nil => rfl
  | cons p rest ih =>
    obtain ⟨k, v⟩ := p
    by_cases hs : skipVal v = true
    · rw [fieldPieces_skip _ _ _ hs] at h
      rw [canonFields_skip _ _ _ hs]
      exact ih h
    · rw [fieldPieces_keep _ _ _ (by simpa using hs)] at h
      cases h

theorem fieldPieces_nil_fsize (fs : List (String × JsonVal))
    (h : fieldPieces fs = []) : fsizeFields fs = 0 := by
  induction fs with
  | nil => rfl
  | cons p rest ih =>
    obtain ⟨k, v⟩ := p
    by_cases hs : skipVal v = true
    · rw [fieldPieces_skip _ _ _ hs] at h
      rw [fsizeFields_skip _ _ _ hs]
      exact ih h
    · rw [fieldPieces_keep _ _ _ (by simpa using hs)] at h
      cases h

theorem joinComma_pair (p q : List Char) (qs : List (List Char)) :
    joinComma (p :: q :: qs) = p ++ ',' :: joinComma (q :: qs) := rfl

theorem printString_eq (s : String) :
    printString s = qC :: (s.data.flatMap escapeChar ++ [qC]) := rfl

theorem parseVal_lbracket_head (f : Nat) (c0 : Char) (t : List Char) (h : ¬ c0 = ']') :
    parseVal (f + 1) ('[' :: c0 :: t)
      = (parseElems f (c0 :: t)).map (fun p => (.arr p.1, p.2)) := by
  rw [parseVal_lbracket]
  split
  · rename_i heq
    injection heq with h1 h2
    exact absurd h1 h
  · rfl

theorem parseVal_lbrace_head (f : Nat) (c0 : Char) (t : List Char) (h : ¬ c0 = rbC) :
    parseVal (f + 1) (lbC :: c0 :: t)
      = (parseFieldsP f (c0 :: t)).map (fun p => (.obj p.1, p.2)) := by
  rw [parseVal_lbrace]
  split
  · rename_i heq
    exact absurd heq (List.cons_ne_nil c0 t)
  · rename_i c2 rest2 heq
    injection heq with e1 e2
    subst e1
    subst e2
    rw [if_neg h]

theorem fieldPieces_head_quote (fs : List (String × JsonVal)) :
    ∀ p ∈ fieldPieces fs, ∃ t, p = qC :: t := by
  induction fs with
  | nil => intro p hp; cases hp
  | cons kv rest ih =>
    obtain ⟨k, v⟩ := kv
    by_cases hs : skipVal v = true
    · rw [fieldPieces_skip _ _ _ hs]; exact ih
    · rw [fieldPieces_keep _ _ _ (by simpa using hs)]
      intro p hp
      rcases List.mem_cons.mp hp with h | h
      · exact ⟨k.data.flatMap escapeChar ++ [qC] ++ ':' :: printVal v, by
          rw [h, printString_eq]; simp⟩
      · exact ih p h

mutual
/-- Parsing the printed form of a value consumes exactly it and yields its
canonicalization. -/
theorem parse_print : ∀ (v : JsonVal) (fuel : Nat) (rest : List Char),
    fsize v ≤ fuel → noDigitHead rest →
    parseVal fuel (printVal v ++ rest) = some (canon v, rest)
  | .null, fuel, rest, hf, _ => by
    have h1 : fsize JsonVal.null = 1 := rfl
    obtain ⟨f, rfl⟩ : ∃ f, fuel = f + 1 := ⟨fuel - 1, by omega⟩
    exact parseVal_null f rest
  | .undef, fuel, rest, hf, _ => by
    have h1 : fsize JsonVal.undef = 1 := rfl
    obtain ⟨f, rfl⟩ : ∃ f, fuel = f + 1 := ⟨fuel - 1, by omega⟩
    exact parseVal_null f rest
  | .fn, fuel, rest, hf, _ => by
    have h1 : fsize JsonVal.fn = 1 := rfl
    obtain ⟨f, rfl⟩ : ∃ f, fuel = f + 1 := ⟨fuel - 1, by omega⟩
    exact parseVal_null f rest
  | .bool true, fuel, rest, hf, _ => by
    have h1 : fsize (JsonVal.bool true) = 1 := rfl
    obtain ⟨f, rfl⟩ : ∃ f, fuel = f + 1 := ⟨fuel - 1, by omega⟩
    exact parseVal_true f rest
  | .bool false, fuel, rest, hf, _ => by
    have h1 : fsize (JsonVal.bool false) = 1 := rfl
    obtain ⟨f, rfl⟩ : ∃ f, fuel = f + 1 := ⟨fuel - 1, by omega⟩
    exact parseVal_false f rest
  | .num i, fuel, rest, hf, hr => by
    have h1 : fsize (JsonVal.num i) = 1 := rfl
    obtain ⟨f, rfl⟩ : ∃ f, fuel = f + 1 := ⟨fuel - 1, by omega⟩
    by_cases h : i < 0
    · have hp : printVal (.num i) ++ rest = '-' :: (natToChars i.natAbs ++ rest) := by
        show (intToString i).data ++ rest = _
        rw [intToString_neg_data i h]
        rfl
      rw [hp, parseVal_neg, parseNatChars_natToChars i.natAbs rest hr]
      show some (JsonVal.num (-(i.natAbs : Int)), rest) = some (JsonVal.num i, rest)
      rw [show (-(i.natAbs : Int)) = i from by omega]
    · have hp : printVal (.num i) ++ rest = natToChars i.toNat ++ rest := by
        show (intToString i).data ++ rest = _
        rw [intToString_nonneg_data i h]
      obtain ⟨c0, tl0, h0⟩ : ∃ c0 tl0, natToChars i.toNat = c0 :: tl0 := by
        cases hh : natToChars i.toNat with
        | nil => exact absurd hh (natToChars_ne_nil _)
        | cons a b => exact ⟨a, b, rfl⟩
      have hd0 : isDigitC c0 = true := natToChars_digits i.toNat c0 (by rw [h0]; simp)
      rw [hp, show natToChars i.toNat ++ rest = c0 :: (tl0 ++ rest) from by rw [h0]; rfl,
        parseVal_digit f c0 (tl0 ++ rest) hd0,
        show c0 :: (tl0 ++ rest) = natToChars i.toNat ++ rest from by rw [h0]; rfl,
        parseNatChars_natToChars i.toNat rest hr]
      show some (JsonVal.num ((i.toNat : Nat) : Int), rest) = some (JsonVal.num i, rest)
      rw [show ((i.toNat : Nat) : Int) = i from by omega]
  | .str s, fuel, rest, hf, _ => by
    have h1 : fsize (JsonVal.str s) = 1 := rfl
    obtain ⟨f, rfl⟩ : ∃ f, fuel = f + 1 := ⟨fuel - 1, by omega⟩
    have hp : printVal (.str s) ++ rest = qC :: (s.data.flatMap escapeChar ++ qC :: rest) := by
      show printString s ++ rest = _
      rw [printString_eq, List.cons_append, List.append_assoc]
      rfl
    rw [hp, parseVal_quote, parseStrChars_escape s.data rest]
    rfl
  | .arr [], fuel, rest, hf, _ => by
    have h1 : fsize (JsonVal.arr []) = 1 + fsizeElems [] := rfl
    have h2 : fsizeElems ([] : List JsonVal) = 0 := rfl
    obtain ⟨f, rfl⟩ : ∃ f, fuel = f + 1 := ⟨fuel - 1, by omega⟩
    show parseVal (f + 1) ('[' :: ']' :: rest) = some (JsonVal.arr [], rest)
    rw [parseVal_lbracket]
    rfl
  | .arr (x :: xs'), fuel, rest, hf, _ => by
    have h1 : fsize (JsonVal.arr (x :: xs')) = 1 + fsizeElems (x :: xs') := rfl
    obtain ⟨f, rfl⟩ : ∃ f, fuel = f + 1 := ⟨fuel - 1, by omega⟩
    have hp : printVal (.arr (x :: xs')) ++ rest
        = '[' :: (joinComma (elemPieces (x :: xs')) ++ ']' :: rest) := by
      show ('[' :: (joinComma (elemPieces (x :: xs')) ++ [']'])) ++ rest = _
      rw [List.cons_append, List.append_assoc]
      rfl
    obtain ⟨c0, tl0, hps, hcls⟩ := printVal_shape x
    have hc0 : ¬ c0 = ']' := (head_ne_closers c0 hcls).1
    have ht : ∃ t, joinComma (elemPieces (x :: xs')) ++ ']' :: rest = c0 :: t := by
      cases xs' with
      | nil => exact ⟨tl0 ++ ']' :: rest, by
          show printVal x ++ ']' :: rest = _
          rw [hps]
          rfl⟩
      | cons y ys => exact ⟨tl0 ++ ',' :: joinComma (elemPieces (y :: ys)) ++ ']' :: rest, by
          show (printVal x ++ ',' :: joinComma (elemPieces (y :: ys))) ++ ']' :: rest = _
          rw [hps]
          simp⟩
    obtain ⟨t, ht⟩ := ht
    rw [hp, ht, parseVal_lbracket_head f c0 t hc0, ← ht,
      parse_print_elems (x :: xs') (List.cons_ne_nil x xs') f rest (by omega)]
    rfl
  | .obj fs, fuel, rest, hf, _ => by
    have h1 : fsize (JsonVal.obj fs) = 1 + fsizeFields fs := rfl
    obtain ⟨f, rfl⟩ : ∃ f, fuel = f + 1 := ⟨fuel - 1, by omega⟩
    cases hfp : fieldPieces fs with
    | nil =>
      have hp : printVal (.obj fs) ++ rest = lbC :: rbC :: rest := by
        show (lbC :: (joinComma (fieldPieces fs) ++ [rbC])) ++ rest = _
        rw [hfp]
        rfl
      rw [hp, parseVal_lbrace]
      show some (JsonVal.obj [], rest) = some (JsonVal.obj (canonFields fs), rest)
      rw [fieldPieces_nil_canon fs hfp]
    | cons p ps =>
      have hp : printVal (.obj fs) ++ rest
          = lbC :: (joinComma (fieldPieces fs) ++ rbC :: rest) := by
        show (lbC :: (joinComma (fieldPieces fs) ++ [rbC])) ++ rest = _
        rw [List.cons_append, List.append_assoc]
        rfl
      obtain ⟨t0, hp0⟩ := fieldPieces_head_quote fs p (by rw [hfp]; exact List.mem_cons_self p ps)
      have ht : ∃ t, joinComma (fieldPieces fs) ++ rbC :: rest = qC :: t := by
        cases ps with
        | nil => exact ⟨t0 ++ rbC :: rest, by rw [hfp, hp0]; rfl⟩
        | cons q qs => exact ⟨t0 ++ ',' :: joinComma (q :: qs) ++ rbC :: rest, by
            rw [hfp, hp0]
            show (qC :: t0) ++ ',' :: joinComma (q :: qs) ++ rbC :: rest = _
            simp⟩
      obtain ⟨t, ht⟩ := ht
      rw [hp, ht, parseVal_lbrace_head f qC t (by decide), ← ht,
        parse_print_fields fs f rest (by omega) (by simp [hfp])]
      rfl
theorem parse_print_elems : ∀ (xs : List JsonVal), xs ≠ [] →
    ∀ (fuel : Nat) (rest : List Char), fsizeElems xs ≤ fuel →
    parseElems fuel (joinComma (elemPieces xs) ++ ']' :: rest) = some (canonElems xs, rest)
  | [], hne, fuel, rest, hf => absurd rfl hne
  | [x], _, fuel, rest, hf => by
    have h1 : fsizeElems [x] = 1 + fsize x + fsizeElems [] := rfl
    have h2 : fsizeElems ([] : List JsonVal) = 0 := rfl
    obtain ⟨f, rfl⟩ : ∃ f, fuel = f + 1 := ⟨fuel - 1, by omega⟩
    show parseElems (f + 1) (printVal x ++ ']' :: rest) = some ([canon x], rest)
    rw [parseElems_step,
      parse_print x f (']' :: rest) (by omega) (show isDigitC ']' = false from by decide)]
    rfl
  | x :: y :: ys, _, fuel, rest, hf => by
    have h1 : fsizeElems (x :: y :: ys) = 1 + fsize x + fsizeElems (y :: ys) := rfl
    obtain ⟨f, rfl⟩ : ∃ f, fuel = f + 1 := ⟨fuel - 1, by omega⟩
    have harg : joinComma (elemPieces (x :: y :: ys)) ++ ']' :: rest
        = printVal x ++ ',' :: (joinComma (elemPieces (y :: ys)) ++ ']' :: rest) := by
      show (printVal x ++ ',' :: joinComma (elemPieces (y :: ys))) ++ ']' :: rest = _
      rw [List.append_assoc]
      rfl
    rw [harg, parseElems_step,
      parse_print x f (',' :: (joinComma (elemPieces (y :: ys)) ++ ']' :: rest)) (by omega)
        (show isDigitC ',' = false from by decide)]
    show (parseElems f (joinComma (elemPieces (y :: ys)) ++ ']' :: rest)).map
        (fun p => (canon x :: p.1, p.2)) = some (canonElems (x :: y :: ys), rest)
    rw [parse_print_elems (y :: ys) (List.cons_ne_nil y ys) f rest (by omega)]
    rfl
theorem parse_print_fields : ∀ (fs : List (String × JsonVal)) (fuel : Nat) (rest : List Char),
    fsizeFields fs ≤ fuel → fieldPieces fs ≠ [] →
    parseFieldsP fuel (joinComma (fieldPieces fs) ++ rbC :: rest) = some (canonFields fs, rest)
  | [], _, _, _, hne => absurd rfl hne
  | (k, v) :: fs', fuel, rest, hf, hne => by
    by_cases hs : skipVal v = true
    · rw [fieldPieces_skip k v fs' hs] at hne ⊢
      rw [canonFields_skip k v fs' hs]
      rw [fsizeFields_skip k v fs' hs] at hf
      exact parse_print_fields fs' fuel rest hf hne
    · have hs' : skipVal v = false := by simpa using hs
      rw [fsizeFields_keep k v fs' hs'] at hf
      obtain ⟨f, rfl⟩ : ∃ f, fuel = f + 1 := ⟨fuel - 1, by omega⟩
      rw [canonFields_keep k v fs' hs']
      cases hfp : fieldPieces fs' with
      | nil =>
        have harg : joinComma (fieldPieces ((k, v) :: fs')) ++ rbC :: rest
            = qC :: (k.data.flatMap escapeChar
              ++ qC :: (':' :: (printVal v ++ rbC :: rest))) := by
          rw [fieldPieces_keep k v fs' hs', hfp]
          show (printString k ++ ':' :: printVal v) ++ rbC :: rest = _
          rw [printString_eq]
          simp
        rw [harg, parseFieldsP_quote,
          parseStrChars_escape k.data (':' :: (printVal v ++ rbC :: rest))]
        show (match parseVal f (printVal v ++ rbC :: rest) with
          | some (w, rest3) =>
            match rest3 with
            | [] => none
            | r :: rest4 =>
              if r = rbC then some ([(⟨k.data⟩, w)], rest4)
              else if r = ',' then
                (parseFieldsP f rest4).map (fun p => ((⟨k.data⟩, w) :: p.1, p.2))
              else none
          | none => none) = some ((k, canon v) :: canonFields fs', rest)
        rw [parse_print v f (rbC :: rest) (by omega) (show isDigitC rbC = false from by decide),
          fieldPieces_nil_canon fs' hfp]
        rfl
      | cons p ps =>
        have harg : joinComma (fieldPieces ((k, v) :: fs')) ++ rbC :: rest
            = qC :: (k.data.flatMap escapeChar
              ++ qC :: (':' :: (printVal v
                ++ ',' :: (joinComma (fieldPieces fs') ++ rbC :: rest)))) := by
          rw [fieldPieces_keep k v fs' hs']
          rw [show fieldPieces fs' = p :: ps from hfp]
          show ((printString k ++ ':' :: printVal v) ++ ',' :: joinComma (p :: ps))
              ++ rbC :: rest = _
          rw [printString_eq]
          simp
        rw [harg, parseFieldsP_quote,
          parseStrChars_escape k.data
            (':' :: (printVal v ++ ',' :: (joinComma (fieldPieces fs') ++ rbC :: rest)))]
        show (match parseVal f (printVal v
            ++ ',' :: (joinComma (fieldPieces fs') ++ rbC :: rest)) with
          | some (w, rest3) =>
            match rest3 with
            | [] => none
            | r :: rest4 =>
              if r = rbC then some ([(⟨k.data⟩, w)], rest4)
              else if r = ',' then
                (parseFieldsP f rest4).map (fun p => ((⟨k.data⟩, w) :: p.1, p.2))
              else none
          | none => none) = some ((k, canon v) :: canonFields fs', rest)
        rw [parse_print v f (',' :: (joinComma (fieldPieces fs') ++ rbC :: rest)) (by omega)
          (show isDigitC ',' = false from by decide)]
        show (if (',' : Char) = rbC then
            some ([((⟨k.data⟩ : String), canon v)], joinComma (fieldPieces fs') ++ rbC :: rest)
          else if (',' : Char) = ',' then
            (parseFieldsP f (joinComma (fieldPieces fs') ++ rbC :: rest)).map
              (fun p => (((⟨k.data⟩ : String), canon v) :: p.1, p.2))
          else none) = some ((k, canon v) :: canonFields fs', rest)
        rw [if_neg (show ¬ (',' : Char) = rbC from by decide), if_pos rfl,
          parse_print_fields fs' f rest (by omega) (by simp [hfp])]
        rfl
end

mutual
/-- The parser fuel `2 * length + 2` used by `parseJson` dominates `fsize`. -/
theorem fsize_le : ∀ (v : JsonVal), fsize v ≤ 2 * (printVal v).length
  | .null => by decide
  | .undef => by decide
  | .fn => by decide
  | .bool true => by decide
  | .bool false => by decide
  | .num i => by
    have h1 : fsize (JsonVal.num i) = 1 := rfl
    obtain ⟨c, tl, hc, -⟩ := printVal_shape (.num i)
    rw [h1, hc]
    simp only [List.length_cons]
    omega
  | .str s => by
    have h1 : fsize (JsonVal.str s) = 1 := rfl
    obtain ⟨c, tl, hc, -⟩ := printVal_shape (.str s)
    rw [h1, hc]
    simp only [List.length_cons]
    omega
  | .arr xs => by
    have h1 : fsize (JsonVal.arr xs) = 1 + fsizeElems xs := rfl
    have h2 : printVal (JsonVal.arr xs) = '[' :: (joinComma (elemPieces xs) ++ [']']) := rfl
    have ih := fsizeElems_le xs
    rw [h1, h2]
    simp only [List.length_cons, List.length_append, List.length_singleton]
    omega
  | .obj fs => by
    have h1 : fsize (JsonVal.obj fs) = 1 + fsizeFields fs := rfl
    have h2 : printVal (JsonVal.obj fs) = lbC :: (joinComma (fieldPieces fs) ++ [rbC]) := rfl
    have ih := fsizeFields_le fs
    rw [h1, h2]
    simp only [List.length_cons, List.length_append, List.length_singleton]
    omega
theorem fsizeElems_le : ∀ (xs : List JsonVal),
    fsizeElems xs ≤ 2 * (joinComma (elemPieces xs)).length + 1
  | [] => by decide
  | [x] => by
    have h1 : fsizeElems [x] = 1 + fsize x + fsizeElems [] := rfl
    have h2 : fsizeElems ([] : List JsonVal) = 0 := rfl
    have h3 : joinComma (elemPieces [x]) = printVal x := rfl
    have ih := fsize_le x
    rw [h1, h2, h3]
    omega
  | x :: y :: ys => by
    have h1 : fsizeElems (x :: y :: ys) = 1 + fsize x + fsizeElems (y :: ys) := rfl
    have h2 : joinComma (elemPieces (x :: y :: ys))
        = printVal x ++ ',' :: joinComma (elemPieces (y :: ys)) := rfl
    have ih1 := fsize_le x
    have ih2 := fsizeElems_le (y :: ys)
    rw [h1, h2]
    simp only [List.length_append, List.length_cons]
    omega
theorem fsizeFields_le : ∀ (fs : List (String × JsonVal)),
    fsizeFields fs ≤ 2 * (joinComma (fieldPieces fs)).length + 1
  | [] => by decide
  | (k, v) :: fs' => by
    by_cases hs : skipVal v = true
    · rw [fsizeFields_skip k v fs' hs, fieldPieces_skip k v fs' hs]
      exact fsizeFields_le fs'
    · have hs' : skipVal v = false := by simpa using hs
      rw [fsizeFields_keep k v fs' hs', fieldPieces_keep k v fs' hs']
      have ih1 := fsize_le v
      cases hfp : fieldPieces fs' with
      | nil =>
        have h0 : fsizeFields fs' = 0 := fieldPieces_nil_fsize fs' hfp
        have h3 : joinComma [printString k ++ ':' :: printVal v]
            = printString k ++ ':' :: printVal v := rfl
        rw [h3]
        simp only [List.length_append, List.length_cons]
        omega
      | cons p ps =>
        have ih2 := fsizeFields_le fs'
        rw [hfp] at ih2
        rw [show joinComma ((printString k ++ ':' :: printVal v) :: p :: ps)
          = (printString k ++ ':' :: printVal v) ++ ',' :: joinComma (p :: ps) from rfl]
        simp only [List.length_append, List.length_cons]
        omega
end

/-- Parsing the printed JSON text of any value yields its canonicalization. -/
theorem parseJson_print (v : JsonVal) : parseJson ⟨printVal v⟩ = some (canon v) := by
  unfold parseJson
  have hdata : (String.mk (printVal v)).data = printVal v := rfl
  have hlen : (String.mk (printVal v)).length = (printVal v).length := rfl
  rw [hdata, hlen]
  have hp : parseVal (2 * (printVal v).length + 2) (printVal v) = some (canon v, []) := by
    have hpp := parse_print v (2 * (printVal v).length + 2) []
      (by have := fsize_le v; omega) trivial
    rwa [List.append_nil] at hpp
  rw [hp]

/-! ## C1 machinery, part 4: percent-encoding/UTF-8 round trip -/

theorem utf8DecodeOne_one (b0 : Nat) (bs : List Nat) (h : b0 < 128) :
    utf8DecodeOne (b0 :: bs) = some (b0, bs) := by
  unfold utf8DecodeOne
  dsimp only
  rw [if_pos h]

theorem utf8DecodeOne_two (b0 b1 : Nat) (bs : List Nat)
    (h0 : 192 ≤ b0 ∧ b0 < 224) (h1 : 128 ≤ b1 ∧ b1 < 192)
    (hval : 128 ≤ (b0 - 192) * 64 + (b1 - 128)) :
    utf8DecodeOne (b0 :: b1 :: bs) = some ((b0 - 192) * 64 + (b1 - 128), bs) := by
  unfold utf8DecodeOne
  dsimp only
  rw [if_neg (by omega), if_neg (by omega), if_pos (by omega)]
  rw [if_pos h1, if_pos hval]

theorem utf8DecodeOne_three (b0 b1 b2 : Nat) (bs : List Nat)
    (h0 : 224 ≤ b0 ∧ b0 < 240) (h1 : 128 ≤ b1 ∧ b1 < 192) (h2 : 128 ≤ b2 ∧ b2 < 192)
    (hval : 2048 ≤ (b0 - 224) * 4096 + (b1 - 128) * 64 + (b2 - 128)
      ∧ ¬ (55296 ≤ (b0 - 224) * 4096 + (b1 - 128) * 64 + (b2 - 128)
        ∧ (b0 - 224) * 4096 + (b1 - 128) * 64 + (b2 - 128) < 57344)) :
    utf8DecodeOne (b0 :: b1 :: b2 :: bs)
      = some ((b0 - 224) * 4096 + (b1 - 128) * 64 + (b2 - 128), bs) := by
  unfold utf8DecodeOne
  dsimp only
  rw [if_neg (by omega), if_neg (by omega), if_neg (by omega), if_pos (by omega)]
  rw [if_pos ⟨h1, h2⟩, if_pos hval]

theorem utf8DecodeOne_four (b0 b1 b2 b3 : Nat) (bs : List Nat)
    (h0 : 240 ≤ b0 ∧ b0 < 248) (h1 : 128 ≤ b1 ∧ b1 < 192) (h2 : 128 ≤ b2 ∧ b2 < 192)
    (h3 : 128 ≤ b3 ∧ b3 < 192)
    (hval : 65536 ≤ (b0 - 240) * 262144 + (b1 - 128) * 4096 + (b2 - 128) * 64 + (b3 - 128)
      ∧ (b0 - 240) * 262144 + (b1 - 128) * 4096 + (b2 - 128) * 64 + (b3 - 128) < 1114112) :
    utf8DecodeOne (b0 :: b1 :: b2 :: b3 :: bs)
      = some ((b0 - 240) * 262144 + (b1 - 128) * 4096 + (b2 - 128) * 64 + (b3 - 128), bs) := by
  unfold utf8DecodeOne
  dsimp only
  rw [if_neg (by omega), if_neg (by omega), if_neg (by omega), if_neg (by omega),
    if_pos (by omega)]
  rw [if_pos ⟨h1, h2, h3⟩, if_pos hval]

theorem utf8Bytes_shape (c : Char) : ∃ b0 tl, utf8Bytes c = b0 :: tl := by
  unfold utf8Bytes
  dsimp only
  split_ifs <;> exact ⟨_, _, rfl⟩

theorem utf8Bytes_lt_256 (c : Char) : ∀ b ∈ utf8Bytes c, b < 256 := by
  have hv := char_valid_ranges c
  intro b hb
  unfold utf8Bytes at hb
  dsimp only at hb
  split_ifs at hb <;> simp at hb <;> omega

set_option maxRecDepth 10000 in
theorem utf8DecodeOne_encode (c : Char) (bs : List Nat) :
    utf8DecodeOne (utf8Bytes c ++ bs) = some (c.toNat, bs) := by
  have hv := char_valid_ranges c
  by_cases e1 : c.toNat < 128
  · have hb : utf8Bytes c = [c.toNat] := by unfold utf8Bytes; rw [if_pos e1]
    rw [hb]
    show utf8DecodeOne (c.toNat :: bs) = some (c.toNat, bs)
    exact utf8DecodeOne_one _ _ e1
  · by_cases e2 : c.toNat < 2048
    · have hb : utf8Bytes c = [192 + c.toNat / 64, 128 + c.toNat % 64] := by
        unfold utf8Bytes; rw [if_neg e1, if_pos e2]
      rw [hb]
      show utf8DecodeOne ((192 + c.toNat / 64) :: (128 + c.toNat % 64) :: bs) = _
      rw [utf8DecodeOne_two (192 + c.toNat / 64) (128 + c.toNat % 64) bs
        (by omega) (by omega) (by omega)]
      congr 2
      omega
    · by_cases e3 : c.toNat < 65536
      · have hb : utf8Bytes c
            = [224 + c.toNat / 4096, 128 + (c.toNat / 64) % 64, 128 + c.toNat % 64] := by
          unfold utf8Bytes; rw [if_neg e1, if_neg e2, if_pos e3]
        rw [hb]
        show utf8DecodeOne ((224 + c.toNat / 4096) :: (128 + (c.toNat / 64) % 64)
          :: (128 + c.toNat % 64) :: bs) = _
        rw [utf8DecodeOne_three (224 + c.toNat / 4096) (128 + (c.toNat / 64) % 64)
          (128 + c.toNat % 64) bs (by omega) (by omega) (by omega)
          (by constructor <;> omega)]
        congr 2
        omega
      · have hb : utf8Bytes c
            = [240 + c.toNat / 262144, 128 + (c.toNat / 4096) % 64,
               128 + (c.toNat / 64) % 64, 128 + c.toNat % 64] := by
          unfold utf8Bytes; rw [if_neg e1, if_neg e2, if_neg e3]
        rw [hb]
        show utf8DecodeOne ((240 + c.toNat / 262144) :: (128 + (c.toNat / 4096) % 64)
          :: (128 + (c.toNat / 64) % 64) :: (128 + c.toNat % 64) :: bs) = _
        rw [utf8DecodeOne_four (240 + c.toNat / 262144) (128 + (c.toNat / 4096) % 64)
          (128 + (c.toNat / 64) % 64) (128 + c.toNat % 64) bs
          (by omega) (by omega) (by omega) (by omega) (by constructor <;> omega)]
        congr 2
        omega

theorem utf8DecodeChars_step (f : Nat) (b0 : Nat) (tl : List Nat) :
    utf8DecodeChars (f + 1) (b0 :: tl)
      = match utf8DecodeOne (b0 :: tl) with
        | some (v, rest) => (utf8DecodeChars f rest).map (fun cs => Char.ofNat v :: cs)
        | none => none := rfl

theorem utf8DecodeChars_encode : ∀ (cs : List Char) (fuel : Nat),
    (utf8ListBytes cs).length ≤ fuel → utf8DecodeChars fuel (utf8ListBytes cs) = some cs := by
  intro cs
  induction cs with
  | nil => intro fuel _; cases fuel <;> rfl
  | cons c cs' ih =>
    intro fuel hfu
    obtain ⟨b0, tlb, hb⟩ := utf8Bytes_shape c
    have hsplit : utf8ListBytes (c :: cs') = utf8Bytes c ++ utf8ListBytes cs' := by
      show (c :: cs').flatMap utf8Bytes = _
      rw [List.flatMap_cons]
      rfl
    have hlen : (utf8ListBytes (c :: cs')).length
        = (utf8Bytes c).length + (utf8ListBytes cs').length := by
      rw [hsplit, List.length_append]
    have hpos : 1 ≤ (utf8Bytes c).length := by rw [hb]; simp
    obtain ⟨f, rfl⟩ : ∃ f, fuel = f + 1 := ⟨fuel - 1, by omega⟩
    rw [hsplit, show utf8Bytes c ++ utf8ListBytes cs' = b0 :: (tlb ++ utf8ListBytes cs')
        from by rw [hb]; rfl,
      utf8DecodeChars_step, show b0 :: (tlb ++ utf8ListBytes cs')
        = utf8Bytes c ++ utf8ListBytes cs' from by rw [hb]; rfl,
      utf8DecodeOne_encode c (utf8ListBytes cs')]
    try dsimp only
    rw [ih f (by omega)]
    try dsimp only
    rw [Char.ofNat_toNat]
    rfl

theorem hexVal_hexDigitChar (d : Nat) (h : d < 16) : hexVal (hexDigitChar d) = some d := by
  unfold hexVal hexDigitChar
  by_cases h10 : d < 10
  · rw [if_pos h10, toNat_ofNat_small (48 + d) (by omega)]
    have hcond : 48 ≤ 48 + d ∧ 48 + d ≤ 57 := by omega
    rw [if_pos hcond]
    congr 1
    omega
  · rw [if_neg h10, toNat_ofNat_small (55 + d) (by omega)]
    have hc1 : ¬ (48 ≤ 55 + d ∧ 55 + d ≤ 57) := by omega
    have hc2 : 65 ≤ 55 + d ∧ 55 + d ≤ 70 := by omega
    rw [if_neg hc1, if_pos hc2]
    congr 1
    omega

theorem pdbF_pct (f : Nat) (h1c h2c : Char) (cs : List Char) :
    percentDecodeBytesF (f + 1) ('%' :: h1c :: h2c :: cs)
      = match hexVal h1c, hexVal h2c with
        | some a, some b => (percentDecodeBytesF f cs).map (fun bs => (16 * a + b) :: bs)
        | _, _ => none := rfl

theorem pdbF_plain (f : Nat) (c : Char) (rest : List Char)
    (hpc : ¬ c = '%') (hlt : c.toNat < 128) :
    percentDecodeBytesF (f + 1) (c :: rest)
      = (percentDecodeBytesF f rest).map (fun bs => c.toNat :: bs) := by
  conv_lhs => unfold percentDecodeBytesF
  rw [if_neg hpc, if_pos hlt]

theorem pdbF_percent (b : Nat) (hb : b < 256) (f : Nat) (cs : List Char) :
    percentDecodeBytesF (f + 1) (percentByte b ++ cs)
      = (percentDecodeBytesF f cs).map (fun bs => b :: bs) := by
  show percentDecodeBytesF (f + 1) ('%' :: hexDigitChar (b / 16) :: hexDigitChar (b % 16) :: cs)
    = _
  rw [pdbF_pct, hexVal_hexDigitChar (b / 16) (by omega), hexVal_hexDigitChar (b % 16) (by omega)]
  dsimp only
  rw [show 16 * (b / 16) + b % 16 = b from by omega]

theorem pdbF_bytes : ∀ (bs : List Nat), (∀ b ∈ bs, b < 256) → ∀ (f : Nat) (cs : List Char),
    percentDecodeBytesF (f + bs.length) (bs.flatMap percentByte ++ cs)
      = (percentDecodeBytesF f cs).map (fun rest => bs ++ rest) := by
  intro bs
  induction bs with
  | nil =>
    intro _ f cs
    show percentDecodeBytesF f cs = _
    cases h : percentDecodeBytesF f cs <;> simp
  | cons b bs' ih =>
    intro hlt f cs
    have hl : f + (b :: bs').length = (f + bs'.length) + 1 := by
      simp [List.length_cons]
      omega
    rw [hl, List.flatMap_cons, List.append_assoc,
      pdbF_percent b (hlt b (by simp)) (f + bs'.length) (bs'.flatMap percentByte ++ cs),
      ih (fun x hx => hlt x (by simp [hx])) f cs]
    cases h : percentDecodeBytesF f cs <;> simp

theorem uriUnreserved_facts (c : Char) (h : uriUnreserved c = true) :
    ¬ c = '%' ∧ c.toNat < 128 := by
  constructor
  · intro he
    rw [he] at h
    exact absurd h (by decide)
  · simp [uriUnreserved] at h
    omega

/-- The character-level encoder used by `encodeURIComponent`. -/
def encChar (c : Char) : List Char :=
  if uriUnreserved c then [c] else (utf8Bytes c).flatMap percentByte

theorem flatMap_percentByte_length (bs : List Nat) :
    (bs.flatMap percentByte).length = 3 * bs.length := by
  induction bs with
  | nil => rfl
  | cons b rest ih =>
    simp only [List.flatMap_cons, List.length_append, List.length_cons, ih, percentByte,
      List.length_nil]
    omega

theorem pdbF_encodeAux : ∀ (cs : List Char) (fuel : Nat),
    (cs.flatMap encChar).length ≤ fuel →
    percentDecodeBytesF fuel (cs.flatMap encChar) = some (utf8ListBytes cs) := by
  intro cs
  induction cs with
  | nil => intro fuel _; cases fuel <;> rfl
  | cons c cs' ih =>
    intro fuel hfu
    by_cases hu : uriUnreserved c = true
    · have hsplit : (c :: cs').flatMap encChar = c :: cs'.flatMap encChar := by
        rw [List.flatMap_cons, show encChar c = [c] from by unfold encChar; rw [if_pos hu]]
        rfl
      rw [hsplit] at hfu ⊢
      have hlen : (c :: cs'.flatMap encChar).length = (cs'.flatMap encChar).length + 1 := by
        simp
      obtain ⟨f, rfl⟩ : ∃ f, fuel = f + 1 := ⟨fuel - 1, by omega⟩
      obtain ⟨hne, h128⟩ := uriUnreserved_facts c hu
      rw [pdbF_plain f c _ hne h128, ih f (by omega)]
      show some (c.toNat :: utf8ListBytes cs') = some (utf8ListBytes (c :: cs'))
      have hb : utf8Bytes c = [c.toNat] := by unfold utf8Bytes; rw [if_pos h128]
      show _ = some ((c :: cs').flatMap utf8Bytes)
      rw [List.flatMap_cons, hb]
      rfl
    · have hsplit : (c :: cs').flatMap encChar
          = (utf8Bytes c).flatMap percentByte ++ cs'.flatMap encChar := by
        rw [List.flatMap_cons,
          show encChar c = (utf8Bytes c).flatMap percentByte from by
            unfold encChar; rw [if_neg hu]]
      rw [hsplit] at hfu ⊢
      have hlen : ((utf8Bytes c).flatMap percentByte ++ cs'.flatMap encChar).length
          = 3 * (utf8Bytes c).length + (cs'.flatMap encChar).length := by
        rw [List.length_append, flatMap_percentByte_length]
      have hpos : 1 ≤ (utf8Bytes c).length := by
        obtain ⟨b0, tl, hb⟩ := utf8Bytes_shape c
        rw [hb]
        simp
      rw [show fuel = (fuel - (utf8Bytes c).length) + (utf8Bytes c).length from by omega,
        pdbF_bytes (utf8Bytes c) (utf8Bytes_lt_256 c) (fuel - (utf8Bytes c).length)
          (cs'.flatMap encChar),
        ih (fuel - (utf8Bytes c).length) (by omega)]
      show some (utf8Bytes c ++ utf8ListBytes cs') = some (utf8ListBytes (c :: cs'))
      show _ = some ((c :: cs').flatMap utf8Bytes)
      rw [List.flatMap_cons]
      rfl

/-- Percent-decoding inverts `encodeURIComponent` (as a test harness would do
with `decodeURIComponent`). -/
theorem decodeURIComponent_encode (s : String) :
    decodeURIComponent (encodeURIComponent s) = some s := by
  unfold decodeURIComponent encodeURIComponent percentDecodeBytes
  have hdata : (String.mk (s.data.flatMap encChar)).data = s.data.flatMap encChar := rfl
  show (percentDecodeBytesF ((String.mk (s.data.flatMap (fun c =>
      if uriUnreserved c then [c] else (utf8Bytes c).flatMap percentByte))).data.length + 1)
      (String.mk (s.data.flatMap (fun c =>
      if uriUnreserved c then [c] else (utf8Bytes c).flatMap percentByte))).data).bind
      (fun bs => (utf8DecodeChars bs.length bs).map (fun cs => (⟨cs⟩ : String))) = some s
  rw [show (String.mk (s.data.flatMap (fun c =>
      if uriUnreserved c then [c] else (utf8Bytes c).flatMap percentByte))).data
      = s.data.flatMap encChar from rfl]
  rw [pdbF_encodeAux s.data ((s.data.flatMap encChar).length + 1) (by omega)]
  show (utf8DecodeChars (utf8ListBytes s.data).length (utf8ListBytes s.data)).map
      (fun cs => (⟨cs⟩ : String)) = some s
  rw [utf8DecodeChars_encode s.data (utf8ListBytes s.data).length le_rfl]
  rfl

/-! ## C1: the `c=` query-parameter round trip for chart-family types -/

/-- What a test harness recovers from the `c=` query parameter of a standard
chart URL: strip the base prefix, percent-decode, JSON-parse. -/
def decodedCParam (url : String) : Option JsonVal :=
  (decodeURIComponent (url.drop (QUICKCHART_BASE_URL ++ "?c=").length)).bind parseJson

theorem string_drop_append (a b : String) : (a ++ b).drop a.length = b := by
  apply String.ext
  rw [String.data_drop, String.data_append]
  simp

/-- Every successful build yields an object (so `JSON.stringify` is total on
it) whose `type` member is the requested type value. -/
theorem generateChartConfig_shape (args config : JsonVal)
    (h : generateChartConfig args = .ok config) :
    skipVal config = false
    ∧ jsGet config "type" = some ((jsGet args "type").getD .undef) := by
  unfold generateChartConfig at h
  dsimp only at h
  split at h
  · cases h
  · split at h
    · cases h
    · split at h
      · cases h
      · split at h
        · injection h with h'
          subst h'
          exact ⟨rfl, by rw [jsGet_obj, objGet_cons_self]⟩
        · split at h
          · cases h
          · split at h
            · cases h
            · split at h
              · split at h
                · cases h
                · injection h with h'
                  subst h'
                  refine ⟨rfl, ?_⟩
                  simp only [setField, builtConfig, jsGet_obj]
                  rw [objGet_objSet_ne _ _ _ _ (by decide), objGet_cons_self]
              · split at h
                · split at h
                  · cases h
                  · injection h with h'
                    subst h'
                    refine ⟨rfl, ?_⟩
                    simp only [builtConfig, jsGet_obj]
                    rw [objGet_cons_self]
                · injection h with h'
                  subst h'
                  refine ⟨rfl, ?_⟩
                  simp only [builtConfig, jsGet_obj]
                  rw [objGet_cons_self]

/-- C1 (amended): for a chart-family request the `generate_chart` URL is the
base endpoint with a single `c=` parameter, and percent-decoding plus
JSON-parsing that parameter recovers the canonicalization of the built
config — the structure with function-valued and undefined-valued object
members dropped — rather than a structure identical to it. -/
theorem chart_c_param_roundtrip (args config : JsonVal)
    (hbuild : generateChartConfig args = .ok config)
    (hfam : ¬ (jsGet args "type").getD .undef = .str "graphviz"
      ∧ ¬ (jsGet args "type").getD .undef = .str "wordcloud") :
    generateChart args = .ok (QUICKCHART_BASE_URL ++ "?c="
        ++ encodeURIComponent (jsonStringifyCoerced config))
    ∧ decodedCParam (QUICKCHART_BASE_URL ++ "?c="
        ++ encodeURIComponent (jsonStringifyCoerced config)) = some (canon config) := by
  obtain ⟨hskip, htype⟩ := generateChartConfig_shape args config hbuild
  have hg : ¬ jsGet config "type" = some (.str "graphviz") := by
    rw [htype]
    intro hh
    exact hfam.1 (Option.some.inj hh)
  have hw : ¬ jsGet config "type" = some (.str "wordcloud") := by
    rw [htype]
    intro hh
    exact hfam.2 (Option.some.inj hh)
  constructor
  · unfold generateChart
    rw [hbuild]
    dsimp only
    unfold generateChartUrl
    rw [if_neg hg, if_neg hw]
  · unfold decodedCParam
    rw [string_drop_append (QUICKCHART_BASE_URL ++ "?c=")
        (encodeURIComponent (jsonStringifyCoerced config)),
      decodeURIComponent_encode]
    show parseJson (jsonStringifyCoerced config) = some (canon config)
    have hjs : jsonStringifyCoerced config = ⟨printVal config⟩ := by
      unfold jsonStringifyCoerced jsonStringify
      rw [if_neg (by simp [hskip])]
    rw [hjs, parseJson_print]

def witRoundArgs : JsonVal := .obj [("type", .str "bar"),
  ("datasets", .arr [.obj [("label", .str "A"), ("data", .arr [.num 1, .num 2])]])]

def witRoundConfig : JsonVal := .obj [
  ("type", .str "bar"),
  ("data", .obj [("labels", .arr []),
    ("datasets", .arr [.obj [("label", .str "A"),
      ("data", .arr [.num 1, .num 2]),
      ("backgroundColor", .undef), ("borderColor", .undef)]])]),
  ("options", .obj [])]

set_option maxRecDepth 8000 in
/-- Witness: the round trip theorem instantiated on a concrete bar chart. -/
theorem chart_c_param_roundtrip_witness :
    generateChart witRoundArgs = .ok (QUICKCHART_BASE_URL ++ "?c="
        ++ encodeURIComponent (jsonStringifyCoerced witRoundConfig))
    ∧ decodedCParam (QUICKCHART_BASE_URL ++ "?c="
        ++ encodeURIComponent (jsonStringifyCoerced witRoundConfig))
      = some (canon witRoundConfig) :=
  chart_c_param_roundtrip witRoundArgs witRoundConfig (by rfl) ⟨by decide, by decide⟩

def cexRoundArgs : JsonVal := .obj [("type", .str "radialGauge"),
  ("datasets", .arr [.obj [("data", .arr [.num 42])]])]

/-- The config the Builder produces for `cexRoundArgs`: its merged
`plugins.datalabels` block still carries the formatter function. -/
def cexRoundConfig : JsonVal := .obj [
  ("type", .str "radialGauge"),
  ("data", .obj [("labels", .arr []),
    ("datasets", .arr [.obj [("label", .str ""),
      ("data", .arr [.num 42]),
      ("backgroundColor", .undef), ("borderColor", .undef)]])]),
  ("options", .obj [("plugins", .obj [("datalabels",
    .obj [("display", .bool true), ("formatter", .fn)])])])]

def cexRoundUrl : String :=
  QUICKCHART_BASE_URL ++ "?c=" ++ encodeURIComponent (jsonStringifyCoerced cexRoundConfig)

set_option maxRecDepth 8000 in
/-- Counterexample to C1 as stated: for this radialGauge request the decoded
`c=` parameter is not identical to the built ChartConfig — the datalabels
formatter (a function) and the undefined-valued dataset members are gone. -/
theorem gauge_c_param_not_identical :
    generateChartConfig cexRoundArgs = .ok cexRoundConfig
    ∧ generateChart cexRoundArgs = .ok cexRoundUrl
    ∧ decodedCParam cexRoundUrl = some (canon cexRoundConfig)
    ∧ ¬ canon cexRoundConfig = cexRoundConfig := by
  refine ⟨rfl, rfl, ?_, by decide⟩
  show (decodeURIComponent (cexRoundUrl.drop
      (QUICKCHART_BASE_URL ++ "?c=").length)).bind parseJson = some (canon cexRoundConfig)
  rw [show cexRoundUrl.drop (QUICKCHART_BASE_URL ++ "?c=").length
      = encodeURIComponent (jsonStringifyCoerced cexRoundConfig) from
      string_drop_append (QUICKCHART_BASE_URL ++ "?c=")
        (encodeURIComponent (jsonStringifyCoerced cexRoundConfig)),
    decodeURIComponent_encode]
  show parseJson (jsonStringifyCoerced cexRoundConfig) = some (canon cexRoundConfig)
  rw [show jsonStringifyCoerced cexRoundConfig = (⟨printVal cexRoundConfig⟩ : String) from rfl,
    parseJson_print]

end QC
